import Mathlib

/-!
# Verification of the microstack in-memory AWS emulator backends

This file gives a shallow embedding, in Lean 4, of the in-memory service
backends of the microstack runtime (S3, CloudWatch Logs, Lambda and
CloudFormation) together with the invocation-log wiring of
`createMicrostackServer`, and proves or refutes a list of claims about them.

Embedding conventions, used throughout:

* JavaScript `Map<string, V>` (insertion-ordered, `set` on an existing key
  keeps its position) is modelled as `List (String × V)` with the `jsMap*`
  helpers below.
* `Array.prototype.sort` with a numeric comparator is stable (ES2019); it is
  modelled by the stable insertion sort `jsSortBy`.  String comparison via
  `localeCompare` and JavaScript `>` on strings are both modelled by Lean's
  code-point order on `String` (they agree on the ASCII data the backends
  handle).
* Byte buffers (`Buffer` / `Uint8Array`) are modelled as `List Nat`; strings
  decoded from UTF-8 buffers are modelled as `String` directly.
* Clock reads (`Date.now()`, `new Date().toISOString()`), cryptographic
  digests, base64 codecs, zip packing and unpacking, UUID generation and
  JSON parsing of raw payload bytes are environment primitives, not part of
  the program; they are supplied as explicit parameters (`Prims`,
  `InvokeEnv`) over which the theorems quantify.  `randomUUID` event ids are
  modelled by a fresh counter.
* Thrown `HttpError`s become `Except HttpError` results; operations that in
  the source mutate state *and* may throw, with the mutation surviving the
  throw, return the new state alongside the `Except`.
-/

/-- AWS-shaped structured error carrier (`src/http-error.ts`). -/
structure HttpError where
  statusCode : Nat
  code : String
  message : String
  deriving Repr, DecidableEq

instance {ε α : Type} [DecidableEq ε] [DecidableEq α] : DecidableEq (Except ε α) := fun a b =>
  match a, b with
  | Except.error e1, Except.error e2 =>
    if h : e1 = e2 then isTrue (by rw [h])
    else isFalse (by intro hh; injection hh; exact h (by assumption))
  | Except.ok v1, Except.ok v2 =>
    if h : v1 = v2 then isTrue (by rw [h])
    else isFalse (by intro hh; injection hh; exact h (by assumption))
  | Except.error _, Except.ok _ => isFalse (by intro hh; cases hh)
  | Except.ok _, Except.error _ => isFalse (by intro hh; cases hh)

/-- Byte buffers (`Buffer` / `Uint8Array`) modelled as lists of bytes. -/
abbrev Bytes := List Nat

/-! ## JavaScript `Map` model -/

/-- `Map.prototype.get`: first (unique) binding of a key. -/
def jsMapGet (k : String) : List (String × α) → Option α
  | [] => none
  | (k', v) :: rest => if k' = k then some v else jsMapGet k rest

/-- `Map.prototype.set`: replace in place if the key is present, else append. -/
def jsMapSet (k : String) (v : α) : List (String × α) → List (String × α)
  | [] => [(k, v)]
  | (k', v') :: rest => if k' = k then (k, v) :: rest else (k', v') :: jsMapSet k v rest

/-- `Map.prototype.delete`: remove the (unique) binding of a key. -/
def jsMapDelete (k : String) : List (String × α) → List (String × α)
  | [] => []
  | (k', v') :: rest => if k' = k then rest else (k', v') :: jsMapDelete k rest

/-- `Map.prototype.has`. -/
def jsMapHas (k : String) (m : List (String × α)) : Bool :=
  (jsMapGet k m).isSome

theorem jsMapGet_set_self (k : String) (v : α) (m : List (String × α)) :
    jsMapGet k (jsMapSet k v m) = some v := by
  induction m with
  | nil => simp [jsMapSet, jsMapGet]
  | cons p rest ih =>
    by_cases h : p.1 = k <;> simp [jsMapSet, jsMapGet, h, ih]

theorem jsMapGet_set_ne (k k' : String) (v : α) (m : List (String × α)) (h : k' ≠ k) :
    jsMapGet k' (jsMapSet k v m) = jsMapGet k' m := by
  induction m with
  | nil => simp [jsMapSet, jsMapGet, Ne.symm h]
  | cons p rest ih =>
    by_cases hp : p.1 = k
    · have hk : k ≠ k' := Ne.symm h
      simp [jsMapSet, jsMapGet, hp, hk]
    · by_cases hp' : p.1 = k' <;> simp [jsMapSet, jsMapGet, hp, hp', h, ih]

/-! ## Stable sort model (`Array.prototype.sort`) -/

/-- One step of stable insertion: `e` goes before the first element `x`
with `le e x`, hence after every earlier element it ties with. -/
def jsInsert (le : α → α → Bool) (e : α) : List α → List α
  | [] => [e]
  | x :: xs => if le e x then e :: x :: xs else x :: jsInsert le e xs

/-- Stable sort, modelling ES2019 `Array.prototype.sort` with a comparator
whose order is `le`. -/
def jsSortBy (le : α → α → Bool) : List α → List α
  | [] => []
  | x :: xs => jsInsert le x (jsSortBy le xs)

theorem jsInsert_perm (le : α → α → Bool) (e : α) (l : List α) :
    (jsInsert le e l).Perm (e :: l) := by
  induction l with
  | nil => simp [jsInsert]
  | cons x xs ih =>
    by_cases h : le e x = true
    · simp [jsInsert, h]
    · simp only [jsInsert, h, if_neg h]
      exact (ih.cons x).trans (List.Perm.swap e x xs)

theorem mem_jsInsert {le : α → α → Bool} {e b : α} {l : List α} :
    b ∈ jsInsert le e l ↔ b = e ∨ b ∈ l := by
  rw [(jsInsert_perm le e l).mem_iff, List.mem_cons]

theorem jsInsert_pairwise (le : α → α → Bool)
    (htot : ∀ a b, le a b = true ∨ le b a = true)
    (htrans : ∀ a b c, le a b = true → le b c = true → le a c = true)
    (e : α) (l : List α) (hl : l.Pairwise (le · · = true)) :
    (jsInsert le e l).Pairwise (le · · = true) := by
  induction l with
  | nil => simp [jsInsert]
  | cons x xs ih =>
    rcases List.pairwise_cons.1 hl with ⟨hx, hxs⟩
    by_cases h : le e x = true
    · simp only [jsInsert, h, if_pos]
      refine List.pairwise_cons.2 ⟨?_, hl⟩
      intro b hb
      rcases List.mem_cons.1 hb with hb | hb
      · subst hb; exact h
      · exact htrans _ _ _ h (hx _ hb)
    · simp only [jsInsert, h, if_neg h]
      refine List.pairwise_cons.2 ⟨?_, ih hxs⟩
      intro b hb
      rcases mem_jsInsert.1 hb with hb | hb
      · rw [hb]
        rcases htot e x with h' | h'
        · exact absurd h' h
        · exact h'
      · exact hx _ hb

theorem jsSortBy_pairwise (le : α → α → Bool)
    (htot : ∀ a b, le a b = true ∨ le b a = true)
    (htrans : ∀ a b c, le a b = true → le b c = true → le a c = true)
    (l : List α) : (jsSortBy le l).Pairwise (le · · = true) := by
  induction l with
  | nil => simp [jsSortBy]
  | cons x xs ih => exact jsInsert_pairwise le htot htrans x _ ih

/-- Inserting an element does not disturb the relative order of the rest:
filtering away the new element recovers the old filter. -/
theorem jsInsert_filter_of_not (le : α → α → Bool) (p : α → Bool) (e : α)
    (he : p e = false) (l : List α) :
    (jsInsert le e l).filter p = l.filter p := by
  induction l with
  | nil => simp [jsInsert, he]
  | cons x xs ih =>
    by_cases h : le e x = true
    · simp [jsInsert, h, he]
    · simp only [jsInsert, h, if_neg h]
      by_cases hx : p x = true <;> simp [List.filter_cons, hx, ih]

/-- A newly inserted element lands before every element it satisfies `le`
against, so on a class where `e` ties with everything it comes first. -/
theorem jsInsert_filter_of_le (le : α → α → Bool) (p : α → Bool) (e : α)
    (he : p e = true) (hle : ∀ x, p x = true → le e x = true) (l : List α) :
    (jsInsert le e l).filter p = e :: l.filter p := by
  induction l with
  | nil => simp [jsInsert, he]
  | cons x xs ih =>
    by_cases h : le e x = true
    · simp [jsInsert, h, he]
    · have hx : p x = false := by
        by_contra hx
        exact h (hle x (by simpa using hx))
      simp only [jsInsert, h, if_neg h]
      simp [List.filter_cons, hx, ih]

/-- Stability of `jsSortBy`: the subsequence of elements in one
tie-class (a class on which the comparator never strictly orders two
members and below which it strictly orders `e`) is preserved. -/
theorem jsSortBy_filter (le : α → α → Bool) (p : α → Bool)
    (hcls : ∀ e, p e = true → ∀ x, p x = true → le e x = true)
    (l : List α) :
    (jsSortBy le l).filter p = l.filter p := by
  induction l with
  | nil => simp [jsSortBy]
  | cons x xs ih =>
    by_cases hx : p x = true
    · rw [jsSortBy, jsInsert_filter_of_le le p x hx (hcls x hx) _]
      simp [List.filter_cons, hx, ih]
    · rw [jsSortBy, jsInsert_filter_of_not le p x (by simpa using hx) _]
      simp [List.filter_cons, hx, ih]

/-- A sorted list is a fixed point of `jsSortBy`. -/
theorem jsSortBy_eq_self (le : α → α → Bool) (l : List α)
    (hl : l.Pairwise (le · · = true)) : jsSortBy le l = l := by
  induction l with
  | nil => rfl
  | cons x xs ih =>
    rcases List.pairwise_cons.1 hl with ⟨hx, hxs⟩
    rw [jsSortBy, ih hxs]
    cases xs with
    | nil => rfl
    | cons y ys => simp [jsInsert, hx y (by simp)]

theorem jsSortBy_perm (le : α → α → Bool) (l : List α) :
    (jsSortBy le l).Perm l := by
  induction l with
  | nil => simp [jsSortBy]
  | cons x xs ih => exact (jsInsert_perm le x _).trans (ih.cons x)

theorem jsMapDelete_of_get_none (k : String) (m : List (String × α))
    (h : jsMapGet k m = none) : jsMapDelete k m = m := by
  induction m with
  | nil => rfl
  | cons p rest ih =>
    by_cases hp : p.1 = k
    · simp [jsMapGet, hp] at h
    · simp only [jsMapGet, hp, if_neg hp] at h
      simp [jsMapDelete, hp, ih h]

theorem jsMapSet_of_get_some (k : String) (v : α) (m : List (String × α))
    (h : jsMapGet k m = some v) : jsMapSet k v m = m := by
  induction m with
  | nil => simp [jsMapGet] at h
  | cons p rest ih =>
    by_cases hp : p.1 = k
    · simp only [jsMapGet, hp, if_pos] at h
      cases p
      simp_all [jsMapSet]
    · simp only [jsMapGet, hp, if_neg hp] at h
      simp [jsMapSet, hp, ih h]

/-! ## String order

JavaScript compares strings (`<`, `>`, and — on the ASCII names handled
here — `localeCompare`) by code points.  Lean's built-in `String` order does
not reduce in the kernel, so the same order is defined on `toList`. -/

/-- Code-point lexicographic strict order on character lists. -/
def charListLt : List Char → List Char → Bool
  | [], [] => false
  | [], _ :: _ => true
  | _ :: _, [] => false
  | a :: as, b :: bs => if a < b then true else if b < a then false else charListLt as bs

/-- JavaScript `a < b` on strings. -/
def strLt (a b : String) : Bool := charListLt a.toList b.toList

/-- The (total pre)order realised by a `localeCompare`-style comparator. -/
def strLe (a b : String) : Bool := !(strLt b a)

/-- JavaScript `String.prototype.startsWith`. -/
def jsStartsWith (s p : String) : Bool := p.toList.isPrefixOf s.toList

theorem charListLt_irrefl : ∀ l, charListLt l l = false
  | [] => rfl
  | a :: as => by simp [charListLt, charListLt_irrefl as]

theorem charListLt_trans : ∀ a b c, charListLt a b = true → charListLt b c = true →
    charListLt a c = true
  | [], [], _, h, _ => by simp [charListLt] at h
  | [], _ :: _, [], _, h => by simp [charListLt] at h
  | [], _ :: _, _ :: _, _, _ => rfl
  | _ :: _, [], _, h, _ => by simp [charListLt] at h
  | _ :: _, _ :: _, [], _, h => by simp [charListLt] at h
  | a :: as, b :: bs, c :: cs, h1, h2 => by
    simp only [charListLt] at h1 h2 ⊢
    rcases lt_trichotomy a b with hab | hab | hab
    · rcases lt_trichotomy b c with hbc | hbc | hbc
      · simp [lt_trans hab hbc]
      · subst hbc
        simp [hab]
      · rw [if_neg (lt_asymm hbc), if_pos hbc] at h2
        simp at h2
    · subst hab
      rcases lt_trichotomy a c with hac | hac | hac
      · simp [hac]
      · subst hac
        rw [if_neg (lt_irrefl a), if_neg (lt_irrefl a)] at h1
        rw [if_neg (lt_irrefl a), if_neg (lt_irrefl a)] at h2
        rw [if_neg (lt_irrefl a), if_neg (lt_irrefl a)]
        exact charListLt_trans as bs cs h1 h2
      · rw [if_neg (lt_asymm hac), if_pos hac] at h2
        simp at h2
    · rw [if_neg (lt_asymm hab), if_pos hab] at h1
      simp at h1

theorem charListLt_connex : ∀ a b, charListLt a b = false → charListLt b a = false → a = b
  | [], [], _, _ => rfl
  | [], _ :: _, h, _ => by simp [charListLt] at h
  | _ :: _, [], _, h => by simp [charListLt] at h
  | a :: as, b :: bs, h1, h2 => by
    simp only [charListLt] at h1 h2
    rcases lt_trichotomy a b with hab | hab | hab
    · rw [if_pos hab] at h1
      simp at h1
    · subst hab
      rw [if_neg (lt_irrefl a), if_neg (lt_irrefl a)] at h1
      rw [if_neg (lt_irrefl a), if_neg (lt_irrefl a)] at h2
      rw [charListLt_connex as bs h1 h2]
    · rw [if_pos hab] at h2
      simp at h2

theorem charListLt_asymm {a b : List Char} (h : charListLt a b = true) :
    charListLt b a = false := by
  by_contra hb
  have hb' : charListLt b a = true := by simpa using hb
  have := charListLt_trans a b a h hb'
  rw [charListLt_irrefl a] at this
  exact Bool.false_ne_true this

theorem string_toList_inj {a b : String} (h : a.toList = b.toList) : a = b := by
  cases a
  cases b
  exact congrArg String.mk h

theorem strLe_total (a b : String) : strLe a b = true ∨ strLe b a = true := by
  by_cases h : charListLt b.toList a.toList = true
  · right
    have hf : strLt a b = false := charListLt_asymm h
    simp [strLe, hf]
  · left
    have hf : strLt b a = false := by
      show charListLt b.toList a.toList = false
      simpa using h
    simp [strLe, hf]

theorem strLe_trans (a b c : String) (h1 : strLe a b = true) (h2 : strLe b c = true) :
    strLe a c = true := by
  simp only [strLe, strLt, Bool.not_eq_true'] at h1 h2 ⊢
  by_contra hca
  have hca' : charListLt c.toList a.toList = true := by simpa using hca
  by_cases hab : charListLt a.toList b.toList = true
  · have : charListLt c.toList b.toList = true := charListLt_trans _ _ _ hca' hab
    rw [h2] at this
    exact Bool.false_ne_true this
  · have hab' : a = b := string_toList_inj (charListLt_connex _ _ (by simpa using hab) h1)
    subst hab'
    rw [h2] at hca'
    exact Bool.false_ne_true hca'

theorem strLt_of_lt_of_le {a b c : String} (h1 : strLt a b = true) (h2 : strLe b c = true) :
    strLt a c = true := by
  simp only [strLe, strLt, Bool.not_eq_true'] at h1 h2 ⊢
  by_contra hac
  have hac' : charListLt a.toList c.toList = false := by simpa using hac
  by_cases hca : charListLt c.toList a.toList = true
  · have : charListLt c.toList b.toList = true := charListLt_trans _ _ _ hca h1
    rw [h2] at this
    exact Bool.false_ne_true this
  · have hac2 : a = c := string_toList_inj (charListLt_connex _ _ hac' (by simpa using hca))
    subst hac2
    rw [h2] at h1
    exact Bool.false_ne_true h1

theorem strLt_of_le_of_ne {a b : String} (h1 : strLe a b = true) (h2 : a ≠ b) :
    strLt a b = true := by
  simp only [strLe, strLt, Bool.not_eq_true'] at h1 ⊢
  by_contra hab
  exact h2 (string_toList_inj (charListLt_connex _ _ (by simpa using hab) h1))

theorem strLt_asymm {a b : String} (h : strLt a b = true) : strLt b a = false := by
  have h' : charListLt a.toList b.toList = true := h
  show charListLt b.toList a.toList = false
  exact charListLt_asymm h'

theorem strLt_irrefl (a : String) : strLt a a = false := by
  simp [strLt, charListLt_irrefl]

theorem strLt_empty_left {k : String} (h : k ≠ "") : strLt "" k = true := by
  have : k.toList ≠ [] := by
    intro hk
    exact h (string_toList_inj (by simpa using hk))
  simp only [strLt]
  cases hk : k.toList with
  | nil => exact absurd hk this
  | cons c cs => rfl

/-! ## Environment primitives

Cryptographic digests, base64 codecs, zip packing, clocks: opaque host
facilities the backends call.  Theorems quantify over them. -/

/-- Host primitives used by the backends (digests, base64, zip packing and
the clock).  `nowIso`/`nowMs` model `new Date().toISOString()` / `Date.now()`
reads; nothing proved here depends on distinct clock readings. -/
structure Prims where
  md5hex : Bytes → String
  sha256b64 : Bytes → String
  b64decode : String → Bytes
  b64encode : Bytes → String
  makeZip : String → Bytes
  nowIso : String
  nowMs : Int

/-! ## S3 backend (`src/runtime/src/services/s3/backend.ts`) -/

/-- An object record of `InMemoryS3Backend`. -/
structure ObjectRecord where
  key : String
  body : Bytes
  etag : String
  contentType : String
  lastModified : String
  deriving Repr, DecidableEq

/-- A bucket record of `InMemoryS3Backend`. -/
structure BucketRecord where
  name : String
  creationDate : String
  objects : List (String × ObjectRecord)
  deriving Repr, DecidableEq

/-- The `buckets` map of `InMemoryS3Backend`. -/
structure S3State where
  buckets : List (String × BucketRecord)
  deriving Repr, DecidableEq

def isLowerAlnum (c : Char) : Bool :=
  (('a' ≤ c) && (c ≤ 'z')) || (('0' ≤ c) && (c ≤ '9'))

def isBucketMiddleChar (c : Char) : Bool :=
  isLowerAlnum c || c = '.' || c = '-'

/-- The regex `^[a-z0-9][a-z0-9.-]{1,61}[a-z0-9]$` of
`InMemoryS3Backend.validateBucketName` (total length 3–63). -/
def validBucketName (name : String) : Bool :=
  let cs := name.toList
  decide (3 ≤ cs.length) && decide (cs.length ≤ 63) &&
  (match cs.head? with | some c => isLowerAlnum c | none => false) &&
  (match cs.getLast? with | some c => isLowerAlnum c | none => false) &&
  ((cs.drop 1).dropLast.all isBucketMiddleChar)

def validateBucketName (name : String) : Except HttpError Unit :=
  if validBucketName name then Except.ok () else
    Except.error ⟨400, "InvalidBucketName", "The specified bucket is not valid: " ++ name⟩

def requireBucket (st : S3State) (name : String) : Except HttpError BucketRecord :=
  match jsMapGet name st.buckets with
  | some b => Except.ok b
  | none => Except.error ⟨404, "NoSuchBucket", "The specified bucket does not exist: " ++ name⟩

def validateObjectKey (key : String) : Except HttpError Unit :=
  if key = "" then Except.error ⟨400, "InvalidArgument", "Object key must be a non-empty string"⟩
  else Except.ok ()

structure S3HeadBucketOutput where
  name : String
  creationDate : String
  deriving Repr, DecidableEq

def createBucket (prims : Prims) (st : S3State) (name : String) :
    Except HttpError (S3HeadBucketOutput × S3State) := do
  let _ ← validateBucketName name
  if jsMapHas name st.buckets then
    Except.error ⟨409, "BucketAlreadyOwnedByYou", "The requested bucket name is not available: " ++ name⟩
  else
    Except.ok (⟨name, prims.nowIso⟩,
      ⟨jsMapSet name ⟨name, prims.nowIso, []⟩ st.buckets⟩)

def deleteBucket (st : S3State) (name : String) : Except HttpError S3State := do
  let bucket ← requireBucket st name
  if bucket.objects.length > 0 then
    Except.error ⟨409, "BucketNotEmpty", "The bucket you tried to delete is not empty: " ++ name⟩
  else
    Except.ok ⟨jsMapDelete name st.buckets⟩

structure S3HeadObjectOutput where
  etag : String
  contentLength : Nat
  contentType : String
  lastModified : String
  deriving Repr, DecidableEq

def toHeadObjectOutput (o : ObjectRecord) : S3HeadObjectOutput :=
  ⟨o.etag, o.body.length, o.contentType, o.lastModified⟩

def putObject (prims : Prims) (st : S3State) (bucketName key : String) (body : Bytes)
    (contentType : Option String) : Except HttpError (S3HeadObjectOutput × S3State) := do
  let bucket ← requireBucket st bucketName
  let _ ← validateObjectKey key
  let record : ObjectRecord :=
    { key := key, body := body, etag := prims.md5hex body,
      contentType := match contentType with
        | some ct => if ct.length > 0 then ct else "application/octet-stream"
        | none => "application/octet-stream",
      lastModified := prims.nowIso }
  Except.ok (toHeadObjectOutput record,
    ⟨jsMapSet bucketName { bucket with objects := jsMapSet key record bucket.objects } st.buckets⟩)

def getObject (st : S3State) (bucketName key : String) :
    Except HttpError (S3HeadObjectOutput × Bytes) := do
  let bucket ← requireBucket st bucketName
  match jsMapGet key bucket.objects with
  | some o => Except.ok (toHeadObjectOutput o, o.body)
  | none => Except.error ⟨404, "NoSuchKey", "The specified key does not exist: " ++ key⟩

def deleteObject (st : S3State) (bucketName key : String) : Except HttpError S3State := do
  let bucket ← requireBucket st bucketName
  Except.ok ⟨jsMapSet bucketName { bucket with objects := jsMapDelete key bucket.objects } st.buckets⟩

/-- `prefix` / `max-keys` / `continuation-token` request fields of
`listObjectsV2` (the source's `prefix` field is called `pfx`: `prefix` is a
reserved word in Lean). -/
structure S3ListObjectsV2Input where
  pfx : Option String := none
  maxKeys : Option Int := none
  continuationToken : Option String := none
  deriving Repr, DecidableEq

structure S3ObjectSummary where
  key : String
  etag : String
  size : Nat
  lastModified : String
  deriving Repr, DecidableEq

structure S3ListObjectsV2Output where
  name : String
  pfx : String
  continuationToken : Option String
  maxKeys : Int
  keyCount : Nat
  isTruncated : Bool
  nextContinuationToken : Option String
  contents : List S3ObjectSummary
  deriving Repr, DecidableEq

/-- `InMemoryS3Backend.parseMaxKeys` (`Number.isInteger` is carried by the
`Int` type of the model). -/
def parseMaxKeys (value : Option Int) : Except HttpError Int :=
  match value with
  | none => Except.ok 1000
  | some v =>
    if v < 0 then Except.error ⟨400, "InvalidArgument", "max-keys must be a non-negative integer"⟩
    else Except.ok v

/-- JavaScript truthiness of an optional string (`if (continuationToken)`):
absent and empty are both falsy. -/
def truthyStr : Option String → Bool
  | none => false
  | some s => s ≠ ""

/-- The arrow function `listObjectsV2` maps over `selectedKeys` with
(`contents: selectedKeys.map(...)`), including its unreachable internal
500 error. -/
def objectSummaryFor (objects : List (String × ObjectRecord)) (key : String) :
    Except HttpError S3ObjectSummary :=
  match jsMapGet key objects with
  | some o => Except.ok ⟨o.key, o.etag, o.body.length, o.lastModified⟩
  | none => Except.error ⟨500, "InternalError", "Object state missing for key " ++ key⟩

/-- `listObjectsV2`.  The candidate keys are sorted with the comparator
`(left, right) => left.localeCompare(right)`: the host's ICU collator is
an environment primitive like the clock, passed as `localeCompare`
(negative/zero/positive, as in JavaScript), and the sort treats
`localeCompare l r ≤ 0` as "l comes no later".  The continuation-token
comparison `key > continuationToken` below is plain code-unit string
order (`strLt`) and does not consult the collator. -/
def listObjectsV2 (localeCompare : String → String → Int) (st : S3State)
    (bucketName : String) (input : S3ListObjectsV2Input) :
    Except HttpError S3ListObjectsV2Output := do
  let bucket ← requireBucket st bucketName
  let pfx := input.pfx.getD ""
  let maxKeys ← parseMaxKeys input.maxKeys
  let continuationToken := input.continuationToken
  let keys := jsSortBy (fun l r => decide (localeCompare l r ≤ 0))
    ((bucket.objects.map Prod.fst).filter (fun key => jsStartsWith key pfx))
  -- `findIndex` returns -1 when no key qualifies and the source then remaps
  -- -1 to `keys.length`; `List.findIdx` already returns `keys.length` there.
  let startIndex :=
    if truthyStr continuationToken then
      keys.findIdx (fun key => strLt (continuationToken.getD "") key)
    else 0
  let selectedKeys := (keys.drop startIndex).take maxKeys.toNat
  let isTruncated := decide (startIndex + selectedKeys.length < keys.length)
  let nextContinuationToken := if isTruncated then selectedKeys.getLast? else none
  let contents ← selectedKeys.mapM (objectSummaryFor bucket.objects)
  Except.ok
    { name := bucket.name
      pfx := pfx
      continuationToken := if truthyStr continuationToken then continuationToken else none
      maxKeys := maxKeys
      keyCount := selectedKeys.length
      isTruncated := isTruncated
      nextContinuationToken := nextContinuationToken
      contents := contents }

/-! ## Claim C9 -/

/-- The state used by concrete witnesses for the S3 claims: one bucket
`unit-bucket` holding objects `a` and `b`. -/
def s3WitnessObj (k : String) : ObjectRecord :=
  { key := k, body := [1], etag := "e", contentType := "application/octet-stream",
    lastModified := "2024-01-01T00:00:00.000Z" }

def s3WitnessState : S3State :=
  ⟨[("unit-bucket",
     { name := "unit-bucket", creationDate := "2024-01-01T00:00:00.000Z",
       objects := [("a", s3WitnessObj "a"), ("b", s3WitnessObj "b")] })]⟩

/-- C9: `deleteObject` on an existing bucket never raises, deleting an
absent key succeeds and leaves the state unchanged, and only a missing
bucket raises the not-found error. -/
theorem C9_deleteObject_tolerant (st : S3State) (bucketName key : String) :
    (jsMapHas bucketName st.buckets = true →
      ∃ st', deleteObject st bucketName key = Except.ok st') ∧
    (∀ bucket, jsMapGet bucketName st.buckets = some bucket →
      jsMapGet key bucket.objects = none →
      deleteObject st bucketName key = Except.ok st) ∧
    (jsMapGet bucketName st.buckets = none →
      deleteObject st bucketName key =
        Except.error ⟨404, "NoSuchBucket", "The specified bucket does not exist: " ++ bucketName⟩) := by
  refine ⟨?_, ?_, ?_⟩
  · intro h
    rcases Option.isSome_iff_exists.1 (by simpa [jsMapHas] using h) with ⟨bucket, hb⟩
    exact ⟨⟨jsMapSet bucketName { bucket with objects := jsMapDelete key bucket.objects } st.buckets⟩,
      by simp [deleteObject, requireBucket, hb, Bind.bind, Except.bind]⟩
  · intro bucket hb hk
    have hdel : jsMapDelete key bucket.objects = bucket.objects :=
      jsMapDelete_of_get_none key _ hk
    have hbucket : ({ bucket with objects := jsMapDelete key bucket.objects } : BucketRecord) = bucket := by
      cases bucket; simp [hdel]
    have hset : jsMapSet bucketName bucket st.buckets = st.buckets :=
      jsMapSet_of_get_some bucketName bucket st.buckets hb
    cases st
    simp_all [deleteObject, requireBucket, hb, hbucket, hset, Bind.bind, Except.bind]
  · intro h
    simp [deleteObject, requireBucket, h, Bind.bind, Except.bind]

/-- Witness for C9 at a concrete state: deleting the absent key `zz` from
`unit-bucket` returns the state unchanged, and a missing bucket errors. -/
theorem C9_deleteObject_tolerant_witness :
    deleteObject s3WitnessState "unit-bucket" "zz" = Except.ok s3WitnessState ∧
    deleteObject s3WitnessState "ghost" "zz" =
      Except.error ⟨404, "NoSuchBucket", "The specified bucket does not exist: ghost"⟩ := by
  constructor
  · exact (C9_deleteObject_tolerant s3WitnessState "unit-bucket" "zz").2.1
      { name := "unit-bucket", creationDate := "2024-01-01T00:00:00.000Z",
        objects := [("a", s3WitnessObj "a"), ("b", s3WitnessObj "b")] }
      (by decide) (by decide)
  · exact (C9_deleteObject_tolerant s3WitnessState "ghost" "zz").2.2 (by decide)

/-! ## Claim C5 -/

theorem jsMapGet_mem {k : String} {v : α} {m : List (String × α)}
    (h : jsMapGet k m = some v) : (k, v) ∈ m := by
  induction m with
  | nil => simp [jsMapGet] at h
  | cons p rest ih =>
    obtain ⟨k2, v2⟩ := p
    by_cases hp : k2 = k
    · rw [jsMapGet, if_pos hp] at h
      injection h with h
      subst h
      subst hp
      exact List.mem_cons_self _ _
    · rw [jsMapGet, if_neg hp] at h
      exact List.mem_cons_of_mem _ (ih h)

theorem jsMapGet_eq_some_of_mem {k : String} {m : List (String × α)}
    (h : k ∈ m.map Prod.fst) : ∃ v, jsMapGet k m = some v := by
  induction m with
  | nil => simp at h
  | cons p rest ih =>
    obtain ⟨k2, v2⟩ := p
    by_cases hp : k2 = k
    · exact ⟨v2, by rw [jsMapGet, if_pos hp]⟩
    · have h2 : k ∈ rest.map Prod.fst := by
        rw [List.map_cons] at h
        rcases List.mem_cons.1 h with h2 | h2
        · exact absurd h2.symm hp
        · exact h2
      rcases ih h2 with ⟨v, hv⟩
      exact ⟨v, by rw [jsMapGet, if_neg hp]; exact hv⟩

/-- The host ICU root collation behind `localeCompare`, restricted to
the keys of the failing input: the collator orders "a" < "B" < "c"
(base letters compare first, case only at a later level), unlike the
code-unit order where "B" < "a" < "c". -/
def c5IcuRank (s : String) : Nat :=
  if s = "a" then 0 else if s = "B" then 1 else 2

def c5LocaleCompare (l r : String) : Int :=
  Int.ofNat (c5IcuRank l) - Int.ofNat (c5IcuRank r)

def c5Obj (k : String) : ObjectRecord :=
  { key := k, body := [1], etag := "e", contentType := "application/octet-stream",
    lastModified := "t" }

/-- A bucket storing the keys `c`, `a`, `B` (in that insertion order). -/
def c5State : S3State :=
  ⟨[("b", { name := "b", creationDate := "t",
            objects := [("c", c5Obj "c"), ("a", c5Obj "a"), ("B", c5Obj "B")] })]⟩

/-- C5: `listObjectsV2` sorts the page with the ICU collator but picks the
continuation start with the code-unit comparison `key > token`, and the two
orders disagree already on ASCII.  On a bucket storing `a`, `B`, `c`: the
full listing is `[a, B, c]` (collator order), which is not ascending in the
code-unit order the token comparison uses (`B` < `a` there); and paginating
with `maxKeys = 1` yields the page `[a]` with token `a`, then the page `[c]`
with `isTruncated = false` — the stored key `B` is never returned by any
page, so the claimed exact, sorted, token-resumable paging fails. -/
theorem C5_locale_sort_vs_token_order :
    (c5State.buckets.map (fun p => p.2.objects.map Prod.fst) = [["c", "a", "B"]]) ∧
    ((listObjectsV2 c5LocaleCompare c5State "b" {}).map
        (fun out => out.contents.map S3ObjectSummary.key)
      = Except.ok ["a", "B", "c"]) ∧
    strLt "B" "a" = true ∧
    ((listObjectsV2 c5LocaleCompare c5State "b" { maxKeys := some 1 }).map
        (fun out => (out.contents.map S3ObjectSummary.key,
          out.isTruncated, out.nextContinuationToken))
      = Except.ok (["a"], true, some "a")) ∧
    ((listObjectsV2 c5LocaleCompare c5State "b"
          { maxKeys := some 1, continuationToken := some "a" }).map
        (fun out => (out.contents.map S3ObjectSummary.key,
          out.isTruncated, out.nextContinuationToken))
      = Except.ok (["c"], false, none)) := by
  refine ⟨?_, ?_, ?_, ?_, ?_⟩ <;> decide

/-! ## CloudWatch Logs backend
(`src/runtime/src/services/cloudwatch-logs/backend.ts`) -/

structure CloudWatchLogEvent where
  timestamp : Int
  ingestionTime : Int
  message : String
  deriving Repr, DecidableEq

structure CloudWatchLogStream where
  logStreamName : String
  creationTime : Int
  arn : String
  storedBytes : Nat
  lastIngestionTime : Option Int
  deriving Repr, DecidableEq

structure LogStreamState where
  details : CloudWatchLogStream
  events : List CloudWatchLogEvent
  deriving Repr, DecidableEq

structure CloudWatchLogGroup where
  logGroupName : String
  creationTime : Int
  arn : String
  storedBytes : Nat
  retentionInDays : Option Int
  deriving Repr, DecidableEq

structure LogGroupState where
  details : CloudWatchLogGroup
  streams : List (String × LogStreamState)
  deriving Repr, DecidableEq

/-- The `groups` map of `InMemoryCloudWatchLogsBackend`. -/
structure LogsState where
  groups : List (String × LogGroupState)
  deriving Repr, DecidableEq

/-- The comparator `(left, right) => left.timestamp - right.timestamp`:
`a` sorts no later than `b` iff its timestamp is not larger. -/
def eventLe (a b : CloudWatchLogEvent) : Bool := decide (a.timestamp ≤ b.timestamp)

/-- `Buffer.byteLength(message, "utf8")`. -/
def utf8Len (s : String) : Nat := (s.toList.map Char.utf8Size).sum

def getOrCreateGroup (st : LogsState) (logGroupName : String) (creationTime : Int)
    (retentionInDays : Option Int) : LogGroupState × LogsState :=
  match jsMapGet logGroupName st.groups with
  | some existing => (existing, st)
  | none =>
    let group : LogGroupState :=
      { details :=
          { logGroupName := logGroupName
            creationTime := creationTime
            arn := "arn:aws:logs:us-east-1:000000000000:log-group:" ++ logGroupName
            storedBytes := 0
            -- `...(retentionInDays ? { retentionInDays } : {})`: 0 is falsy
            retentionInDays := match retentionInDays with
              | some r => if r = 0 then none else some r
              | none => none }
        streams := [] }
    (group, ⟨jsMapSet logGroupName group st.groups⟩)

def createLogGroup (nowMs : Int) (st : LogsState) (logGroupName : String)
    (retentionInDays : Option Int) : Except HttpError LogsState :=
  if jsMapHas logGroupName st.groups then
    Except.error ⟨400, "ResourceAlreadyExistsException",
      "The specified log group already exists: " ++ logGroupName⟩
  else
    Except.ok (getOrCreateGroup st logGroupName nowMs retentionInDays).2

def deleteLogGroup (st : LogsState) (logGroupName : String) : Except HttpError LogsState :=
  if jsMapHas logGroupName st.groups then
    Except.ok ⟨jsMapDelete logGroupName st.groups⟩
  else
    Except.error ⟨400, "ResourceNotFoundException",
      "The specified log group does not exist: " ++ logGroupName⟩

def getOrCreateStream (group : LogGroupState) (logGroupName logStreamName : String)
    (creationTime : Int) : LogStreamState × LogGroupState :=
  match jsMapGet logStreamName group.streams with
  | some existing => (existing, group)
  | none =>
    let stream : LogStreamState :=
      { details :=
          { logStreamName := logStreamName
            creationTime := creationTime
            arn := "arn:aws:logs:us-east-1:000000000000:log-group:" ++ logGroupName ++
              ":log-stream:" ++ logStreamName
            storedBytes := 0
            lastIngestionTime := none }
        events := [] }
    (stream, { group with streams := jsMapSet logStreamName stream group.streams })

def putLogEvent (nowMs : Int) (st : LogsState) (logGroupName logStreamName message : String)
    (timestamp : Option Int) : LogsState :=
  let eventTime := timestamp.getD nowMs
  let groupSt := getOrCreateGroup st logGroupName eventTime none
  let streamGr := getOrCreateStream groupSt.1 logGroupName logStreamName eventTime
  let event : CloudWatchLogEvent :=
    { timestamp := eventTime, ingestionTime := nowMs, message := message }
  let events1 := jsSortBy eventLe (streamGr.1.events ++ [event])
  let stream1 : LogStreamState :=
    { details := { streamGr.1.details with
        lastIngestionTime := some event.ingestionTime
        storedBytes := (events1.map (fun e => utf8Len e.message)).sum }
      events := events1 }
  let group2 : LogGroupState :=
    { streamGr.2 with streams := jsMapSet logStreamName stream1 streamGr.2.streams }
  let group3 : LogGroupState :=
    { group2 with details := { group2.details with
        storedBytes := (group2.streams.map (fun p => p.2.details.storedBytes)).sum } }
  ⟨jsMapSet logGroupName group3 groupSt.2.groups⟩

def getLogEvents (st : LogsState) (logGroupName logStreamName : String) :
    Except HttpError (List CloudWatchLogEvent) :=
  match jsMapGet logGroupName st.groups with
  | none => Except.error ⟨400, "ResourceNotFoundException",
      "The specified log group does not exist: " ++ logGroupName⟩
  | some group =>
    match jsMapGet logStreamName group.streams with
    | none => Except.error ⟨400, "ResourceNotFoundException",
        "The specified log stream does not exist: " ++ logStreamName⟩
    | some stream => Except.ok (jsSortBy eventLe stream.events)

/-! ## Claim C8 -/

theorem eventLe_total (a b : CloudWatchLogEvent) : eventLe a b = true ∨ eventLe b a = true := by
  simp only [eventLe, decide_eq_true_eq]
  exact Int.le_total a.timestamp b.timestamp

theorem eventLe_trans (a b c : CloudWatchLogEvent) (h1 : eventLe a b = true)
    (h2 : eventLe b c = true) : eventLe a c = true := by
  simp only [eventLe, decide_eq_true_eq] at h1 h2 ⊢
  exact le_trans h1 h2

/-- The events of one `(group, stream)` pair, `[]` when absent. -/
def logsEventsAt (st : LogsState) (g s : String) : List CloudWatchLogEvent :=
  match jsMapGet g st.groups with
  | some group =>
    match jsMapGet s group.streams with
    | some stream => stream.events
    | none => []
  | none => []

/-- A single `putLogEvent` appends-and-stable-sorts into the addressed
stream. -/
theorem putLogEvent_eventsAt_same (nowMs : Int) (st : LogsState)
    (g s message : String) (timestamp : Option Int) :
    logsEventsAt (putLogEvent nowMs st g s message timestamp) g s =
      jsSortBy eventLe (logsEventsAt st g s ++
        [{ timestamp := timestamp.getD nowMs, ingestionTime := nowMs, message := message }]) := by
  cases hg : jsMapGet g st.groups with
  | none =>
    simp only [putLogEvent, getOrCreateGroup, hg, getOrCreateStream, logsEventsAt, jsMapGet,
      jsMapGet_set_self]
  | some group =>
    cases hs : jsMapGet s group.streams with
    | none =>
      simp only [putLogEvent, getOrCreateGroup, hg, getOrCreateStream, hs, logsEventsAt, jsMapGet,
        jsMapGet_set_self]
    | some stream =>
      simp only [putLogEvent, getOrCreateGroup, hg, getOrCreateStream, hs, logsEventsAt, jsMapGet,
        jsMapGet_set_self]

/-- A `putLogEvent` leaves every other `(group, stream)` pair untouched. -/
theorem putLogEvent_eventsAt_other (nowMs : Int) (st : LogsState)
    (g s message : String) (timestamp : Option Int) (g' s' : String)
    (hne : g' ≠ g ∨ s' ≠ s) :
    logsEventsAt (putLogEvent nowMs st g s message timestamp) g' s' =
      logsEventsAt st g' s' := by
  by_cases hgg : g' = g
  · rcases hne with hne | hne
    · exact absurd hgg hne
    · subst hgg
      have hsne : s ≠ s' := Ne.symm hne
      cases hg : jsMapGet g' st.groups with
      | none =>
        simp [putLogEvent, getOrCreateGroup, hg, getOrCreateStream, logsEventsAt, jsMapGet,
          jsMapGet_set_self, jsMapGet_set_ne _ _ _ _ hne, jsMapSet, hsne]
      | some group =>
        cases hs : jsMapGet s group.streams with
        | none =>
          simp [putLogEvent, getOrCreateGroup, hg, getOrCreateStream, hs, logsEventsAt,
            jsMapGet_set_self, jsMapGet_set_ne _ _ _ _ hne, hg]
        | some stream =>
          simp [putLogEvent, getOrCreateGroup, hg, getOrCreateStream, hs, logsEventsAt,
            jsMapGet_set_self, jsMapGet_set_ne _ _ _ _ hne, hg]
  · cases hg : jsMapGet g st.groups with
    | none =>
      simp [putLogEvent, getOrCreateGroup, hg, getOrCreateStream, logsEventsAt, jsMapGet,
        jsMapGet_set_ne _ _ _ _ hgg, jsMapSet, hgg]
    | some group =>
      cases hs : jsMapGet s group.streams with
      | none =>
        simp [putLogEvent, getOrCreateGroup, hg, getOrCreateStream, hs, logsEventsAt,
          jsMapGet_set_ne _ _ _ _ hgg]
      | some stream =>
        simp [putLogEvent, getOrCreateGroup, hg, getOrCreateStream, hs, logsEventsAt,
          jsMapGet_set_ne _ _ _ _ hgg]

/-- The stream record of one `(group, stream)` pair. -/
def logsStreamAt (st : LogsState) (g s : String) : Option LogStreamState :=
  match jsMapGet g st.groups with
  | some group => jsMapGet s group.streams
  | none => none

/-- By definition the events of a pair are those of its stream record. -/
theorem logsEventsAt_eq_elim (st : LogsState) (g s : String) :
    logsEventsAt st g s = (logsStreamAt st g s).elim [] LogStreamState.events := by
  rw [logsEventsAt, logsStreamAt]
  cases jsMapGet g st.groups with
  | none => rfl
  | some group =>
    show (match jsMapGet s group.streams with
      | some stream => stream.events
      | none => []) = (jsMapGet s group.streams).elim [] LogStreamState.events
    cases jsMapGet s group.streams with
    | none => rfl
    | some stream => rfl

/-- After a `putLogEvent` the addressed stream exists. -/
theorem putLogEvent_streamAt_isSome (nowMs : Int) (st : LogsState)
    (g s message : String) (timestamp : Option Int) :
    (logsStreamAt (putLogEvent nowMs st g s message timestamp) g s).isSome = true := by
  cases hg : jsMapGet g st.groups with
  | none =>
    simp [putLogEvent, getOrCreateGroup, hg, getOrCreateStream, logsStreamAt, jsMapGet,
      jsMapGet_set_self]
  | some group =>
    cases hs : jsMapGet s group.streams with
    | none =>
      simp [putLogEvent, getOrCreateGroup, hg, getOrCreateStream, hs, logsStreamAt,
        jsMapGet, jsMapGet_set_self]
    | some stream =>
      simp [putLogEvent, getOrCreateGroup, hg, getOrCreateStream, hs, logsStreamAt,
        jsMapGet, jsMapGet_set_self]

/-- The addressed stream after a `putLogEvent`: sorted events and freshly
recomputed `storedBytes`. -/
theorem putLogEvent_streamAt_same (nowMs : Int) (st : LogsState)
    (g s message : String) (timestamp : Option Int) :
    ∀ stream1, logsStreamAt (putLogEvent nowMs st g s message timestamp) g s = some stream1 →
      stream1.events = jsSortBy eventLe (logsEventsAt st g s ++
        [{ timestamp := timestamp.getD nowMs, ingestionTime := nowMs, message := message }]) ∧
      stream1.details.storedBytes = (stream1.events.map (fun e => utf8Len e.message)).sum := by
  intro stream1 hstream
  cases hg : jsMapGet g st.groups with
  | none =>
    rw [logsStreamAt] at hstream
    simp only [putLogEvent, getOrCreateGroup, hg, getOrCreateStream, jsMapGet,
      jsMapGet_set_self] at hstream
    injection hstream with hstream
    rw [← hstream]
    simp [logsEventsAt, hg]
  | some group =>
    cases hs : jsMapGet s group.streams with
    | none =>
      rw [logsStreamAt] at hstream
      simp only [putLogEvent, getOrCreateGroup, hg, getOrCreateStream, hs, jsMapGet,
        jsMapGet_set_self] at hstream
      injection hstream with hstream
      rw [← hstream]
      simp [logsEventsAt, hg, hs]
    | some stream =>
      rw [logsStreamAt] at hstream
      simp only [putLogEvent, getOrCreateGroup, hg, getOrCreateStream, hs, jsMapGet,
        jsMapGet_set_self] at hstream
      injection hstream with hstream
      rw [← hstream]
      simp [logsEventsAt, hg, hs]

/-- A `putLogEvent` leaves every other stream record untouched. -/
theorem putLogEvent_streamAt_other (nowMs : Int) (st : LogsState)
    (g s message : String) (timestamp : Option Int) (g' s' : String)
    (hne : g' ≠ g ∨ s' ≠ s) :
    logsStreamAt (putLogEvent nowMs st g s message timestamp) g' s' =
      logsStreamAt st g' s' := by
  by_cases hgg : g' = g
  · rcases hne with hne | hne
    · exact absurd hgg hne
    · subst hgg
      have hsne : s ≠ s' := Ne.symm hne
      cases hg : jsMapGet g' st.groups with
      | none =>
        simp [putLogEvent, getOrCreateGroup, hg, getOrCreateStream, logsStreamAt, jsMapGet,
          jsMapGet_set_self, jsMapGet_set_ne _ _ _ _ hne, jsMapSet, hsne]
      | some group =>
        cases hs : jsMapGet s group.streams with
        | none =>
          simp [putLogEvent, getOrCreateGroup, hg, getOrCreateStream, hs, logsStreamAt,
            jsMapGet_set_self, jsMapGet_set_ne _ _ _ _ hne, hg]
        | some stream =>
          simp [putLogEvent, getOrCreateGroup, hg, getOrCreateStream, hs, logsStreamAt,
            jsMapGet_set_self, jsMapGet_set_ne _ _ _ _ hne, hg]
  · cases hg : jsMapGet g st.groups with
    | none =>
      simp [putLogEvent, getOrCreateGroup, hg, getOrCreateStream, logsStreamAt, jsMapGet,
        jsMapGet_set_ne _ _ _ _ hgg, jsMapSet, hgg]
    | some group =>
      cases hs : jsMapGet s group.streams with
      | none =>
        simp [putLogEvent, getOrCreateGroup, hg, getOrCreateStream, hs, logsStreamAt,
          jsMapGet_set_ne _ _ _ _ hgg]
      | some stream =>
        simp [putLogEvent, getOrCreateGroup, hg, getOrCreateStream, hs, logsStreamAt,
          jsMapGet_set_ne _ _ _ _ hgg]

/-- One `putLogEvent` call of a replayed history. -/
structure PutLogEventOp where
  logGroupName : String
  logStreamName : String
  message : String
  timestamp : Option Int
  nowMs : Int
  deriving Repr, DecidableEq

def runPutLogEvents (ops : List PutLogEventOp) : LogsState :=
  ops.foldl (fun st op =>
    putLogEvent op.nowMs st op.logGroupName op.logStreamName op.message op.timestamp) ⟨[]⟩

def matchesStream (op : PutLogEventOp) (g s : String) : Bool :=
  op.logGroupName == g && op.logStreamName == s

/-- The event a `putLogEvent` call constructs. -/
def opEvent (op : PutLogEventOp) : CloudWatchLogEvent :=
  { timestamp := op.timestamp.getD op.nowMs, ingestionTime := op.nowMs, message := op.message }

/-- The events a history of puts inserts into one stream, in insertion
order (specification device for the stability claim). -/
def insertedEvents (ops : List PutLogEventOp) (g s : String) : List CloudWatchLogEvent :=
  (ops.filter (fun op => matchesStream op g s)).map opEvent

theorem insertedEvents_append (ops1 ops2 : List PutLogEventOp) (g s : String) :
    insertedEvents (ops1 ++ ops2) g s = insertedEvents ops1 g s ++ insertedEvents ops2 g s := by
  simp [insertedEvents, List.filter_append]

/-- The per-stream invariant of C8: events sorted, per-timestamp classes in
insertion order, `storedBytes` the sum of message byte lengths. -/
def C8Inv (ops : List PutLogEventOp) (st : LogsState) : Prop :=
  ∀ g s, (logsEventsAt st g s).Pairwise (eventLe · · = true) ∧
    (∀ t : Int, (logsEventsAt st g s).filter (fun e => e.timestamp == t) =
      (insertedEvents ops g s).filter (fun e => e.timestamp == t)) ∧
    (∀ stream, logsStreamAt st g s = some stream →
      stream.details.storedBytes = (stream.events.map (fun e => utf8Len e.message)).sum)

theorem C8Inv_step (ops : List PutLogEventOp) (st : LogsState) (op : PutLogEventOp)
    (h : C8Inv ops st) :
    C8Inv (ops ++ [op])
      (putLogEvent op.nowMs st op.logGroupName op.logStreamName op.message op.timestamp) := by
  intro g s
  obtain ⟨hsorted, hfilter, hbytes⟩ := h g s
  by_cases hmatch : op.logGroupName = g ∧ op.logStreamName = s
  · obtain ⟨hg, hs⟩ := hmatch
    subst hg
    subst hs
    have hevAt := putLogEvent_eventsAt_same op.nowMs st op.logGroupName op.logStreamName
      op.message op.timestamp
    refine ⟨?_, ?_, ?_⟩
    · rw [hevAt]
      exact jsSortBy_pairwise _ eventLe_total eventLe_trans _
    · intro t
      rw [hevAt, jsSortBy_filter _ _ ?hcls _]
      · rw [List.filter_append, hfilter t, insertedEvents_append,
          List.filter_append]
        have : insertedEvents [op] op.logGroupName op.logStreamName = [opEvent op] := by
          simp [insertedEvents, matchesStream]
        rw [this]
        rfl
      · intro e he x hx
        simp only [beq_iff_eq] at he hx
        simp [eventLe, he, hx]
    · intro stream hstream
      exact (putLogEvent_streamAt_same op.nowMs st op.logGroupName op.logStreamName
        op.message op.timestamp stream hstream).2
  · have hne : g ≠ op.logGroupName ∨ s ≠ op.logStreamName := by
      rcases not_and_or.1 hmatch with hne | hne
      · exact Or.inl (fun hh => hne hh.symm)
      · exact Or.inr (fun hh => hne hh.symm)
    have hevAt := putLogEvent_eventsAt_other op.nowMs st op.logGroupName op.logStreamName
      op.message op.timestamp g s hne
    have hstAt := putLogEvent_streamAt_other op.nowMs st op.logGroupName op.logStreamName
      op.message op.timestamp g s hne
    have hins : insertedEvents [op] g s = [] := by
      rcases hne with hne | hne <;>
        simp [insertedEvents, matchesStream, Ne.symm hne]
    refine ⟨?_, ?_, ?_⟩
    · rw [hevAt]; exact hsorted
    · intro t
      rw [hevAt, insertedEvents_append, hins, List.append_nil]
      exact hfilter t
    · intro stream hstream
      rw [hstAt] at hstream
      exact hbytes stream hstream

theorem C8Inv_foldl (ops : List PutLogEventOp) :
    ∀ (ops0 : List PutLogEventOp) (st : LogsState), C8Inv ops0 st →
    C8Inv (ops0 ++ ops) (ops.foldl (fun st op =>
      putLogEvent op.nowMs st op.logGroupName op.logStreamName op.message op.timestamp) st) := by
  induction ops with
  | nil =>
    intro ops0 st h
    rw [List.append_nil]
    exact h
  | cons op rest ih =>
    intro ops0 st h
    have hstep := C8Inv_step ops0 st op h
    have := ih (ops0 ++ [op]) _ hstep
    rw [List.append_assoc] at this
    simpa using this

theorem C8Inv_empty : C8Inv [] ⟨[]⟩ := by
  intro g s
  refine ⟨?_, ?_, ?_⟩ <;>
    simp [logsEventsAt, logsStreamAt, insertedEvents, jsMapGet]

theorem C8Inv_runPuts (ops : List PutLogEventOp) : C8Inv ops (runPutLogEvents ops) := by
  have := C8Inv_foldl ops [] ⟨[]⟩ C8Inv_empty
  simpa [runPutLogEvents] using this

/-- C8: after any sequence of `putLogEvent` calls, every stream's events
are sorted ascending by timestamp with per-timestamp classes in insertion
order, `getLogEvents` returns them in that order, and `storedBytes` is the
sum of the UTF-8 byte lengths of the messages. -/
theorem C8_putLogEvent_stream_invariants (ops : List PutLogEventOp) (g s : String)
    (group : LogGroupState) (stream : LogStreamState)
    (hg : jsMapGet g (runPutLogEvents ops).groups = some group)
    (hs : jsMapGet s group.streams = some stream) :
    stream.events.Pairwise (eventLe · · = true) ∧
    (∀ t : Int, stream.events.filter (fun e => e.timestamp == t) =
      (insertedEvents ops g s).filter (fun e => e.timestamp == t)) ∧
    getLogEvents (runPutLogEvents ops) g s = Except.ok stream.events ∧
    stream.details.storedBytes = (stream.events.map (fun e => utf8Len e.message)).sum := by
  obtain ⟨hsorted, hfilter, hbytes⟩ := C8Inv_runPuts ops g s
  have hstAt : logsStreamAt (runPutLogEvents ops) g s = some stream := by
    rw [logsStreamAt, hg]
    exact hs
  have hevAt : logsEventsAt (runPutLogEvents ops) g s = stream.events := by
    rw [logsEventsAt_eq_elim, hstAt]
    rfl
  rw [hevAt] at hsorted hfilter
  refine ⟨hsorted, hfilter, ?_, hbytes stream hstAt⟩
  simp only [getLogEvents, hg, hs]
  rw [jsSortBy_eq_self _ _ hsorted]

/-- Witness for C8: two puts into the same stream with equal timestamps
keep insertion order and account two messages' bytes. -/
theorem C8_putLogEvent_stream_invariants_witness :
    ∃ group stream,
      jsMapGet "g" (runPutLogEvents
        [⟨"g", "s", "one", some 5, 100⟩, ⟨"g", "s", "two", some 5, 101⟩]).groups = some group ∧
      jsMapGet "s" group.streams = some stream ∧
      stream.events.Pairwise (eventLe · · = true) ∧
      stream.details.storedBytes = (stream.events.map (fun e => utf8Len e.message)).sum ∧
      stream.events.filter (fun e => e.timestamp == (5 : Int)) =
        (insertedEvents [⟨"g", "s", "one", some 5, 100⟩, ⟨"g", "s", "two", some 5, 101⟩]
          "g" "s").filter (fun e => e.timestamp == (5 : Int)) := by
  refine ⟨_, _, rfl, rfl, ?_, ?_, ?_⟩
  all_goals
    obtain ⟨h1, h2, h3, h4⟩ := C8_putLogEvent_stream_invariants
      [⟨"g", "s", "one", some 5, 100⟩, ⟨"g", "s", "two", some 5, 101⟩] "g" "s" _ _ rfl rfl
  · exact h1
  · exact h4
  · exact h2 5

/-! ## JSON values

Parsed JSON (events, payloads, template properties).  Numbers are modelled
as integers: every numeric literal the claims exercise is integral. -/

inductive Json where
  | null : Json
  | bool (b : Bool) : Json
  | num (n : Int) : Json
  | str (s : String) : Json
  | arr (items : List Json) : Json
  | obj (fields : List (String × Json)) : Json
  deriving Repr

/-! ## Lambda backend
(`InMemoryLambdaBackend`, `src/services/lambda/backend.ts`; types from
`src/services/lambda/types.ts`) -/

structure FunctionConfig where
  functionName : String
  runtime : String
  role : String
  handler : String
  timeout : Int
  environment : List (String × String)
  zipFile : Bytes
  codeSha256 : String
  version : Nat
  lastModified : String
  deriving Repr, DecidableEq

structure CreateFunctionCode where
  ZipFile : Option String := none
  deriving Repr, DecidableEq

structure CreateFunctionEnvironment where
  Variables : Option (List (String × String)) := none
  deriving Repr, DecidableEq

structure CreateFunctionInput where
  FunctionName : String
  Runtime : String
  Role : String
  Handler : String
  Timeout : Option Int := none
  Environment : Option CreateFunctionEnvironment := none
  Code : Option CreateFunctionCode := none
  deriving Repr, DecidableEq

structure UpdateFunctionConfigurationInput where
  Runtime : Option String := none
  Role : Option String := none
  Handler : Option String := none
  Timeout : Option Int := none
  Environment : Option CreateFunctionEnvironment := none
  deriving Repr, DecidableEq

structure UpdateFunctionCodeInput where
  ZipFile : Option String := none
  deriving Repr, DecidableEq

/-- The `functions` map of `InMemoryLambdaBackend`. -/
structure LambdaState where
  functions : List (String × FunctionConfig)
  deriving Repr, DecidableEq

def createFunction (prims : Prims) (st : LambdaState) (input : CreateFunctionInput) :
    Except HttpError (FunctionConfig × LambdaState) :=
  if jsMapHas input.FunctionName st.functions then
    Except.error ⟨409, "ResourceConflictException",
      "Function already exists: " ++ input.FunctionName⟩
  else if input.Runtime ≠ "nodejs20.x" then
    Except.error ⟨400, "InvalidParameterValueException",
      "Unsupported runtime: " ++ input.Runtime⟩
  else
    -- `!input.Code?.ZipFile`: an absent or empty base64 text is rejected
    match input.Code.bind CreateFunctionCode.ZipFile with
    | none => Except.error ⟨400, "InvalidParameterValueException", "ZipFile is required"⟩
    | some z =>
      if z = "" then
        Except.error ⟨400, "InvalidParameterValueException", "ZipFile is required"⟩
      else
        let zipFile := prims.b64decode z
        let fn : FunctionConfig :=
          { functionName := input.FunctionName
            runtime := input.Runtime
            role := input.Role
            handler := input.Handler
            timeout := input.Timeout.getD 3
            environment := (input.Environment.bind CreateFunctionEnvironment.Variables).getD []
            zipFile := zipFile
            codeSha256 := prims.sha256b64 zipFile
            version := 1
            lastModified := prims.nowIso }
        Except.ok (fn, ⟨jsMapSet fn.functionName fn st.functions⟩)

def getFunction (st : LambdaState) (name : String) : Except HttpError FunctionConfig :=
  match jsMapGet name st.functions with
  | some fn => Except.ok fn
  | none => Except.error ⟨404, "ResourceNotFoundException", "Function not found: " ++ name⟩

def listFunctions (st : LambdaState) : List FunctionConfig :=
  st.functions.map Prod.snd

def deleteFunction (st : LambdaState) (name : String) : Except HttpError LambdaState :=
  if jsMapHas name st.functions then
    Except.ok ⟨jsMapDelete name st.functions⟩
  else
    Except.error ⟨404, "ResourceNotFoundException", "Function not found: " ++ name⟩

def updateFunctionConfiguration (prims : Prims) (st : LambdaState) (name : String)
    (input : UpdateFunctionConfigurationInput) :
    Except HttpError (FunctionConfig × LambdaState) := do
  let fn ← getFunction st name
  let updated : FunctionConfig :=
    { fn with
      runtime := input.Runtime.getD fn.runtime
      role := input.Role.getD fn.role
      handler := input.Handler.getD fn.handler
      timeout := input.Timeout.getD fn.timeout
      environment := (input.Environment.bind CreateFunctionEnvironment.Variables).getD
        fn.environment
      lastModified := prims.nowIso }
  Except.ok (updated, ⟨jsMapSet name updated st.functions⟩)

def updateFunctionCode (prims : Prims) (st : LambdaState) (name : String)
    (input : UpdateFunctionCodeInput) : Except HttpError (FunctionConfig × LambdaState) := do
  let fn ← getFunction st name
  match input.ZipFile with
  | none => Except.error ⟨400, "InvalidParameterValueException", "ZipFile is required"⟩
  | some z =>
    if z = "" then
      Except.error ⟨400, "InvalidParameterValueException", "ZipFile is required"⟩
    else
      let zipFile := prims.b64decode z
      let updated : FunctionConfig :=
        { fn with
          zipFile := zipFile
          codeSha256 := prims.sha256b64 zipFile
          version := fn.version + 1
          lastModified := prims.nowIso }
      Except.ok (updated, ⟨jsMapSet name updated st.functions⟩)

/-! ### invokeFunction

The host facilities `invokeFunction` touches — zip extraction
(`AdmZip.extractAllTo` / `readFileSync`), `JSON.parse`/`JSON.stringify`,
the dynamic cache-busting `import` with its export table, the handler run
raced against the timer, and `randomUUID` — are supplied by an
`InvokeEnv`.  The ambient-environment save/restore of the `try`/`finally`
has no bearing on any claim and is not modelled beyond the oracle. -/

/-- Outcome of racing the loaded handler against the timeout timer. -/
inductive HandlerOutcome where
  | ret (value : Option Json)
  | fault (name message : String)
  | timeout

/-- Host-environment oracle for one `invokeFunction` call. -/
structure InvokeEnv where
  zipEntries : Bytes → List String
  parseJson : Bytes → Option Json
  jsonStringify : Json → String
  exportCallable : String → Bool
  run : Json → HandlerOutcome
  requestId : String

/-- `handler.split(".")`, character-exact (`String.splitOn` does not reduce
in the kernel). -/
def splitDotAux : List Char → List Char → List String
  | [], acc => [String.mk acc.reverse]
  | c :: cs, acc =>
    if c = '.' then String.mk acc.reverse :: splitDotAux cs []
    else splitDotAux cs (c :: acc)

def jsSplitDot (s : String) : List String := splitDotAux s.toList []

/-- `const [moduleName, exportName] = fn.handler.split(".")` together with
the falsiness checks: the first two dot-separated components must exist
and be non-empty; any further components are dropped. -/
def splitHandler (handler : String) : Option (String × String) :=
  match jsSplitDot handler with
  | m :: e :: _ => if m = "" ∨ e = "" then none else some (m, e)
  | _ => none

/-- `resolveHandlerFile`: first of `{module}.mjs`, `{module}.js`,
`{module}.cjs` present among the extracted entries. -/
def resolveHandlerFile (entries : List String) (moduleName : String) :
    Except HttpError String :=
  let candidates := [moduleName ++ ".mjs", moduleName ++ ".js", moduleName ++ ".cjs"]
  match candidates.find? (fun c => entries.contains c) with
  | some c => Except.ok c
  | none => Except.error ⟨400, "InvalidParameterValueException",
      "Handler module not found: " ++ moduleName⟩

/-- `seconds.toFixed(2)` for the integral timeouts of the model. -/
def toFixed2 (n : Int) : String := toString n ++ ".00"

/-- `InvokeResult`: `payload` is the UTF-8 text of the payload bytes. -/
structure InvokeResult where
  payload : String
  functionError : Option String := none
  deriving Repr, DecidableEq

/-- The result of `invokeFunction` together with the observable scratch
directory effects (`mkdtempSync` / the `finally` block's `rmSync`). -/
structure InvokeOutcome where
  result : Except HttpError InvokeResult
  dirCreated : Bool
  dirRemoved : Bool
  deriving Repr, DecidableEq

def invokeFunction (env : InvokeEnv) (st : LambdaState) (name : String) (payload : Bytes) :
    InvokeOutcome :=
  match getFunction st name with
  | Except.error e => ⟨Except.error e, false, false⟩
  | Except.ok fn =>
    match splitHandler fn.handler with
    | none => ⟨Except.error ⟨400, "InvalidParameterValueException",
        "Invalid handler format: " ++ fn.handler⟩, false, false⟩
    | some me =>
      -- `mkdtempSync` creates the scratch directory here; the statements
      -- between it and the `try` block run outside the `finally`, so their
      -- failures leave the directory behind.
      match resolveHandlerFile (env.zipEntries fn.zipFile) me.1 with
      | Except.error e => ⟨Except.error e, true, false⟩
      | Except.ok _handlerPath =>
        match (if payload.length = 0 then some Json.null else env.parseJson payload) with
        | none =>
          -- `JSON.parse` throws a SyntaxError, mapped by `sendError` to a
          -- 500; it is raised before the `try`, so the directory leaks.
          ⟨Except.error ⟨500, "InternalServerError", "Unexpected token in JSON"⟩, true, false⟩
        | some event =>
          -- from here on every exit passes through the `finally`
          if env.exportCallable me.2 = false then
            ⟨Except.error ⟨400, "InvalidParameterValueException",
              "Handler export not found: " ++ fn.handler⟩, true, true⟩
          else
            match env.run event with
            | HandlerOutcome.ret value =>
              ⟨Except.ok { payload := env.jsonStringify (value.getD Json.null) }, true, true⟩
            | HandlerOutcome.timeout =>
              ⟨Except.ok
                { payload := env.jsonStringify (Json.obj
                    [("errorType", Json.str "TimeoutError"),
                     ("errorMessage", Json.str
                       ("Task timed out after " ++ toFixed2 fn.timeout ++ " seconds"))])
                  functionError := some "Unhandled" }, true, true⟩
            | HandlerOutcome.fault n m =>
              ⟨Except.ok
                { payload := env.jsonStringify (Json.obj
                    [("errorType", Json.str (if n = "" then "Error" else n)),
                     ("errorMessage", Json.str (if m = "" then "Unknown error" else m))])
                  functionError := some "Unhandled" }, true, true⟩

/-- `InvocationLogRecord` (lambda `types.ts`): `payload` is the UTF-8 text
of the record's payload bytes. -/
structure InvocationLogRecord where
  functionName : String
  requestId : String
  timestamp : Int
  payload : String
  functionError : Option String := none
  deriving Repr, DecidableEq

/-- The `invocationLogger` wired by `createMicrostackServer`: three events
into group `/aws/lambda/<name>`, stream `<date>/[$LATEST]<requestId>`, at
`t`, `t+1` and `t+2`.  `dateStr` abstracts the `YYYY/MM/DD` rendering of
the timestamp; `nowMs` the ingestion-time clock reads. -/
def invocationLogger (dateStr : Int → String) (nowMs : Int) (st : LogsState)
    (record : InvocationLogRecord) : LogsState :=
  let logGroupName := "/aws/lambda/" ++ record.functionName
  let logStreamName := dateStr record.timestamp ++ "/[$LATEST]" ++ record.requestId
  let payloadText := record.payload
  let st1 := putLogEvent nowMs st logGroupName logStreamName
    ("START RequestId: " ++ record.requestId) (some record.timestamp)
  let st2 := putLogEvent nowMs st1 logGroupName logStreamName
    ((if record.functionError.isSome then "ERROR " else "RESULT ") ++ payloadText)
    (some (record.timestamp + 1))
  putLogEvent nowMs st2 logGroupName logStreamName
    ("END RequestId: " ++ record.requestId) (some (record.timestamp + 2))

/-- Modelled from the spec: the lambda backend used by
`createMicrostackServer` accepts an `invocationLogger` option (the server
passes one and the lambda `types.ts` declares `InvocationLogger`), but the
backend revision carrying it is not among the available sources.  Per the
spec — "For every invocation, on success *and* on fault, the runtime
publishes three log events to a configured sink" with the failure taxonomy
"pre-invocation errors ... are *not* wrapped" — every invocation that
yields an `InvokeResult` publishes exactly one `InvocationLogRecord` with
the invocation's request id, start time, payload and error marker to the
injected logger, and pre-invocation errors publish nothing. -/
def invokeFunctionLogged (env : InvokeEnv) (dateStr : Int → String) (startMs : Int)
    (st : LambdaState) (logs : LogsState) (name : String) (payload : Bytes) :
    InvokeOutcome × LogsState :=
  let out := invokeFunction env st name payload
  match out.result with
  | Except.ok r =>
    (out, invocationLogger dateStr startMs logs
      { functionName := name, requestId := env.requestId, timestamp := startMs,
        payload := r.payload, functionError := r.functionError })
  | Except.error _ => (out, logs)

/-! ## Claims C7, C4, C3 -/

/-- C7: `updateFunctionCode` bumps `version` by exactly one and recomputes
the digest from the new bundle; `updateFunctionConfiguration` keeps
`version` and retains every field absent from the patch. -/
theorem C7_update_version_and_retention (prims : Prims) (st : LambdaState) (name : String)
    (fn : FunctionConfig) (hfn : jsMapGet name st.functions = some fn) :
    (∀ z fn' st', z ≠ "" →
      updateFunctionCode prims st name { ZipFile := some z } = Except.ok (fn', st') →
      fn'.version = fn.version + 1 ∧
      fn'.codeSha256 = prims.sha256b64 (prims.b64decode z) ∧
      fn'.zipFile = prims.b64decode z ∧
      fn'.functionName = fn.functionName ∧ fn'.runtime = fn.runtime ∧
      fn'.role = fn.role ∧ fn'.handler = fn.handler ∧ fn'.timeout = fn.timeout ∧
      fn'.environment = fn.environment) ∧
    (∀ input fn' st',
      updateFunctionConfiguration prims st name input = Except.ok (fn', st') →
      fn'.version = fn.version ∧
      fn'.zipFile = fn.zipFile ∧ fn'.codeSha256 = fn.codeSha256 ∧
      (input.Runtime = none → fn'.runtime = fn.runtime) ∧
      (input.Role = none → fn'.role = fn.role) ∧
      (input.Handler = none → fn'.handler = fn.handler) ∧
      (input.Timeout = none → fn'.timeout = fn.timeout) ∧
      (input.Environment.bind CreateFunctionEnvironment.Variables = none →
        fn'.environment = fn.environment)) := by
  constructor
  · intro z fn' st' hz hupd
    simp only [updateFunctionCode, getFunction, hfn, Bind.bind, Except.bind,
      if_neg hz] at hupd
    injection hupd with hpair
    rw [Prod.mk.injEq] at hpair
    obtain ⟨hf, _⟩ := hpair
    rw [← hf]
    exact ⟨rfl, rfl, rfl, rfl, rfl, rfl, rfl, rfl, rfl⟩
  · intro input fn' st' hupd
    simp only [updateFunctionConfiguration, getFunction, hfn, Bind.bind, Except.bind] at hupd
    injection hupd with hpair
    rw [Prod.mk.injEq] at hpair
    obtain ⟨hf, _⟩ := hpair
    rw [← hf]
    refine ⟨rfl, rfl, rfl, ?_, ?_, ?_, ?_, ?_⟩ <;>
      (intro h; simp [h])

/-- The concrete host primitives used by the witnesses. -/
def witnessPrims : Prims :=
  { md5hex := fun _ => "md5", sha256b64 := fun _ => "sha-of-new",
    b64decode := fun _ => [7], b64encode := fun _ => "b64", makeZip := fun _ => [9],
    nowIso := "2024-01-01T00:00:00.000Z", nowMs := 0 }

def lambdaWitnessFn : FunctionConfig :=
  { functionName := "fn", runtime := "nodejs20.x", role := "r", handler := "index.handler",
    timeout := 3, environment := [("A", "1")], zipFile := [1], codeSha256 := "sha-old",
    version := 1, lastModified := "t" }

def lambdaWitnessState : LambdaState := ⟨[("fn", lambdaWitnessFn)]⟩

/-- Witness for C7 at a concrete function record. -/
theorem C7_update_version_and_retention_witness :
    (∃ fn' st', updateFunctionCode witnessPrims lambdaWitnessState "fn"
        { ZipFile := some "enc" } = Except.ok (fn', st') ∧
      fn'.version = 2 ∧ fn'.codeSha256 = "sha-of-new") ∧
    (∃ fn' st', updateFunctionConfiguration witnessPrims lambdaWitnessState "fn"
        { Timeout := some 10 } = Except.ok (fn', st') ∧
      fn'.version = 1 ∧ fn'.runtime = "nodejs20.x" ∧ fn'.environment = [("A", "1")]) := by
  constructor
  · refine ⟨_, _, rfl, ?_, ?_⟩
    all_goals
      have h := (C7_update_version_and_retention witnessPrims lambdaWitnessState "fn"
        lambdaWitnessFn rfl).1 "enc" _ _ (by decide) rfl
    · rw [h.1]
      decide
    · exact h.2.1
  · refine ⟨_, _, rfl, ?_, ?_, ?_⟩
    all_goals
      have h := (C7_update_version_and_retention witnessPrims lambdaWitnessState "fn"
        lambdaWitnessFn rfl).2 { Timeout := some 10 } _ _ rfl
    · rw [h.1]
      decide
    · exact h.2.2.2.1 rfl
    · exact h.2.2.2.2.2.2.2 rfl

def c4Env : InvokeEnv :=
  { zipEntries := fun _ => ["index.mjs"]
    parseJson := fun _ => some Json.null
    jsonStringify := fun _ => "null"
    exportCallable := fun e => e == "handler.fn"
    run := fun _ => HandlerOutcome.ret (some Json.null)
    requestId := "req-4" }

def c4State : LambdaState :=
  ⟨[("fn", { lambdaWitnessFn with handler := "index.handler.fn" })]⟩

/-- C4 counterexample: for handler `index.handler.fn` the code takes the
first TWO components of `split(".")` — module `index`, export `handler` —
not "everything after the first dot".  With a module whose only callable
export is `handler.fn`, the invocation fails with *Handler export not
found* even though the claim's reading (module `index`, export
`handler.fn`, both non-empty and callable) would have it succeed. -/
theorem C4_counterexample :
    splitHandler "index.handler.fn" = some ("index", "handler") ∧
    some ("index", "handler") ≠ some ("index", "handler.fn") ∧
    ("index" ≠ "" ∧ "handler.fn" ≠ "" ∧ c4Env.exportCallable "handler.fn" = true) ∧
    invokeFunction c4Env c4State "fn" [] =
      ⟨Except.error ⟨400, "InvalidParameterValueException",
        "Handler export not found: index.handler.fn"⟩, true, true⟩ := by
  refine ⟨by decide, by decide, ⟨by decide, by decide, by decide⟩, by decide⟩

/-- C4 amended: `invokeFunction` splits the handler at EVERY dot and uses
the first two components (module, export); if the string has fewer than
two components or either of the first two is empty, it fails with the
invalid-parameter error before creating the scratch directory; otherwise
the export looked up in the loaded module is exactly the second component. -/
theorem C4_handler_split_amended (env : InvokeEnv) (st : LambdaState) (name : String)
    (payload : Bytes) (fn : FunctionConfig)
    (hfn : jsMapGet name st.functions = some fn) :
    (splitHandler fn.handler = none →
      invokeFunction env st name payload =
        ⟨Except.error ⟨400, "InvalidParameterValueException",
          "Invalid handler format: " ++ fn.handler⟩, false, false⟩) ∧
    (∀ m e rest, jsSplitDot fn.handler = m :: e :: rest → m ≠ "" → e ≠ "" →
      splitHandler fn.handler = some (m, e)) ∧
    (∀ m e rest hp, jsSplitDot fn.handler = m :: e :: rest → m ≠ "" → e ≠ "" →
      resolveHandlerFile (env.zipEntries fn.zipFile) m = Except.ok hp →
      (if payload.length = 0 then some Json.null else env.parseJson payload).isSome = true →
      env.exportCallable e = false →
      invokeFunction env st name payload =
        ⟨Except.error ⟨400, "InvalidParameterValueException",
          "Handler export not found: " ++ fn.handler⟩, true, true⟩) := by
  refine ⟨?_, ?_, ?_⟩
  · intro hnone
    simp only [invokeFunction, getFunction, hfn, hnone]
  · intro m e rest hsplit hm he
    rw [splitHandler, hsplit]
    show (if m = "" ∨ e = "" then none else some (m, e)) = some (m, e)
    rw [if_neg]
    push_neg
    exact ⟨hm, he⟩
  · intro m e rest hp hsplit hm he hresolve hparse hcall
    have hsh : splitHandler fn.handler = some (m, e) := by
      rw [splitHandler, hsplit]
      show (if m = "" ∨ e = "" then none else some (m, e)) = some (m, e)
      rw [if_neg]
      push_neg
      exact ⟨hm, he⟩
    rcases Option.isSome_iff_exists.1 hparse with ⟨event, hevent⟩
    simp only [invokeFunction, getFunction, hfn, hsh, hresolve, hevent, hcall]
    simp

def c4wEnv : InvokeEnv := { c4Env with exportCallable := fun e => e == "handler" }

/-- Witness for C4's amended statement: with handler `index.handler.fn`
the export consulted is `handler`; when it is not callable the invocation
fails with *Handler export not found* after cleanup. -/
theorem C4_handler_split_amended_witness :
    invokeFunction c4Env c4State "fn" [] =
      ⟨Except.error ⟨400, "InvalidParameterValueException",
        "Handler export not found: index.handler.fn"⟩, true, true⟩ := by
  have h := (C4_handler_split_amended c4Env c4State "fn" []
    { lambdaWitnessFn with handler := "index.handler.fn" } rfl).2.2
    "index" "handler" ["fn"] "index.mjs" (by decide) (by decide) (by decide) rfl
    (by decide) (by decide)
  simpa using h

def c3Env : InvokeEnv :=
  { zipEntries := fun _ => ["index.mjs"]
    parseJson := fun _ => some Json.null
    jsonStringify := fun _ => "null"
    exportCallable := fun _ => true
    run := fun _ => HandlerOutcome.ret (some Json.null)
    requestId := "req-3" }

def c3MissingState : LambdaState :=
  ⟨[("fn", { lambdaWitnessFn with handler := "main.handler" })]⟩

def c3BadJsonEnv : InvokeEnv := { c3Env with parseJson := fun _ => none }

def c3FaultEnv : InvokeEnv := { c3Env with run := fun _ => HandlerOutcome.fault "Error" "boom" }

/-- C3: the scratch directory is created after handler-string validation
but `resolveHandlerFile` and `JSON.parse` run between `mkdtempSync` and
the `try`, so on a missing handler file or an unparseable payload the
`finally` never runs and the directory leaks; an in-`try` handler fault
does clean up. -/
theorem C3_scratch_dir_leak :
    invokeFunction c3Env c3MissingState "fn" [] =
      ⟨Except.error ⟨400, "InvalidParameterValueException",
        "Handler module not found: main"⟩, true, false⟩ ∧
    (invokeFunction c3BadJsonEnv lambdaWitnessState "fn" [123]).dirCreated = true ∧
    (invokeFunction c3BadJsonEnv lambdaWitnessState "fn" [123]).dirRemoved = false ∧
    (invokeFunction c3FaultEnv lambdaWitnessState "fn" []).dirRemoved = true ∧
    (invokeFunction c3FaultEnv lambdaWitnessState "fn" []).result =
      Except.ok { payload := "null", functionError := some "Unhandled" } := by
  refine ⟨by decide, by decide, by decide, by decide, by decide⟩

/-! ## Claim C1 -/

theorem getLogEvents_of_streamAt (st : LogsState) (g s : String) (stream : LogStreamState)
    (h : logsStreamAt st g s = some stream) :
    getLogEvents st g s = Except.ok (jsSortBy eventLe stream.events) := by
  rw [logsStreamAt] at h
  cases hg : jsMapGet g st.groups with
  | none => rw [hg] at h; cases h
  | some group =>
    rw [hg] at h
    have h2 : jsMapGet s group.streams = some stream := h
    simp only [getLogEvents, hg, h2]

/-- C1: every invocation that yields an `InvokeResult` (success or handler
fault) publishes exactly three events — `START`, `RESULT`/`ERROR`, `END` —
into log group `/aws/lambda/<name>`, same request id, at `t`, `t+1`, `t+2`. -/
theorem C1_invocation_three_log_events (env : InvokeEnv) (dateStr : Int → String)
    (startMs : Int) (st : LambdaState) (logs : LogsState) (name : String) (payload : Bytes)
    (r : InvokeResult)
    (hres : (invokeFunction env st name payload).result = Except.ok r)
    (hfresh : logsEventsAt logs ("/aws/lambda/" ++ name)
      (dateStr startMs ++ "/[$LATEST]" ++ env.requestId) = []) :
    getLogEvents (invokeFunctionLogged env dateStr startMs st logs name payload).2
      ("/aws/lambda/" ++ name) (dateStr startMs ++ "/[$LATEST]" ++ env.requestId) =
    Except.ok
      [{ timestamp := startMs, ingestionTime := startMs,
         message := "START RequestId: " ++ env.requestId },
       { timestamp := startMs + 1, ingestionTime := startMs,
         message := (if r.functionError.isSome then "ERROR " else "RESULT ") ++ r.payload },
       { timestamp := startMs + 2, ingestionTime := startMs,
         message := "END RequestId: " ++ env.requestId }] := by
  have hlogs2 : (invokeFunctionLogged env dateStr startMs st logs name payload).2 =
      invocationLogger dateStr startMs logs
        { functionName := name, requestId := env.requestId, timestamp := startMs,
          payload := r.payload, functionError := r.functionError } := by
    rw [invokeFunctionLogged]
    simp only [hres]
  rw [hlogs2, invocationLogger]
  simp only
  set g := "/aws/lambda/" ++ name with hgdef
  set s := dateStr startMs ++ "/[$LATEST]" ++ env.requestId with hsdef
  set e1 : CloudWatchLogEvent :=
    { timestamp := startMs, ingestionTime := startMs,
      message := "START RequestId: " ++ env.requestId } with he1
  set e2 : CloudWatchLogEvent :=
    { timestamp := startMs + 1, ingestionTime := startMs,
      message := (if r.functionError.isSome then "ERROR " else "RESULT ") ++ r.payload } with he2
  set e3 : CloudWatchLogEvent :=
    { timestamp := startMs + 2, ingestionTime := startMs,
      message := "END RequestId: " ++ env.requestId } with he3
  have hle12 : eventLe e1 e2 = true := by simp [eventLe, he1, he2]
  have hle13 : eventLe e1 e3 = true := by
    simp only [eventLe, he1, he3, decide_eq_true_eq]
    omega
  have hle23 : eventLe e2 e3 = true := by
    simp only [eventLe, he2, he3, decide_eq_true_eq]
    omega
  have h1 : logsEventsAt (putLogEvent startMs logs g s e1.message (some startMs)) g s = [e1] := by
    rw [putLogEvent_eventsAt_same, hfresh]
    simp [jsSortBy, jsInsert, he1]
  have h2 : logsEventsAt (putLogEvent startMs
      (putLogEvent startMs logs g s e1.message (some startMs)) g s e2.message
      (some (startMs + 1))) g s = [e1, e2] := by
    rw [putLogEvent_eventsAt_same, h1]
    have hsorted : ([e1, e2] : List CloudWatchLogEvent).Pairwise (eventLe · · = true) := by
      simp [List.pairwise_cons, hle12]
    have := jsSortBy_eq_self eventLe [e1, e2] hsorted
    simpa [he2] using this
  obtain ⟨stream3, hstream3⟩ := Option.isSome_iff_exists.1
    (putLogEvent_streamAt_isSome startMs _ g s e3.message (some (startMs + 2)))
  have hev3 := (putLogEvent_streamAt_same startMs _ g s e3.message (some (startMs + 2))
    stream3 hstream3).1
  rw [h2] at hev3
  have hsorted3 : ([e1, e2, e3] : List CloudWatchLogEvent).Pairwise (eventLe · · = true) := by
    simp [List.pairwise_cons, hle12, hle13, hle23]
  have hev3' : stream3.events = [e1, e2, e3] := by
    rw [hev3]
    have := jsSortBy_eq_self eventLe [e1, e2, e3] hsorted3
    simpa [he3] using this
  rw [getLogEvents_of_streamAt _ g s stream3 hstream3, hev3',
    jsSortBy_eq_self eventLe _ hsorted3]

def c1Env : InvokeEnv :=
  { zipEntries := fun _ => ["index.mjs"]
    parseJson := fun _ => some Json.null
    jsonStringify := fun _ => "null"
    exportCallable := fun _ => true
    run := fun _ => HandlerOutcome.ret none
    requestId := "req-c1" }

/-- Witness for C1: a successful invocation of `fn` starting at `t = 1000`
publishes `START`/`RESULT`/`END` at 1000, 1001, 1002 into
`/aws/lambda/fn`. -/
theorem C1_invocation_three_log_events_witness :
    getLogEvents (invokeFunctionLogged c1Env (fun _ => "2026/01/01") 1000
        lambdaWitnessState ⟨[]⟩ "fn" []).2
      ("/aws/lambda/" ++ "fn") ("2026/01/01" ++ "/[$LATEST]" ++ c1Env.requestId) =
    Except.ok
      [{ timestamp := 1000, ingestionTime := 1000,
         message := "START RequestId: " ++ c1Env.requestId },
       { timestamp := 1000 + 1, ingestionTime := 1000,
         message := "RESULT " ++ "null" },
       { timestamp := 1000 + 2, ingestionTime := 1000,
         message := "END RequestId: " ++ c1Env.requestId }] := by
  have h := C1_invocation_three_log_events c1Env (fun _ => "2026/01/01") 1000
    lambdaWitnessState ⟨[]⟩ "fn" [] { payload := "null", functionError := none }
    (by decide) rfl
  simpa using h

/-! ## CloudFormation backend
(`InMemoryCloudFormationBackend`,
`src/runtime/src/services/cloudformation/types.ts`)

`templateBody` parsing (JSON, then YAML) is a wire concern not modelled
here: the operations take and store the parsed `TemplateDocument`.
`randomUUID` is modelled by the fresh counter of `Backends`; the
`updateStack` flow is not needed by any claim and is not embedded. -/

structure ResourceRecord where
  stackName : String
  stackId : String
  logicalResourceId : String
  physicalResourceId : String
  resourceType : String
  resourceStatus : String
  resourceStatusReason : Option String := none
  timestamp : String
  deriving Repr, DecidableEq

structure StackEvent where
  eventId : String
  stackName : String
  stackId : String
  logicalResourceId : String
  physicalResourceId : String
  resourceType : String
  resourceStatus : String
  resourceStatusReason : Option String := none
  timestamp : String
  deriving Repr, DecidableEq

structure StackSummary where
  stackId : String
  stackName : String
  creationTime : String
  stackStatus : String
  stackStatusReason : Option String := none
  deriving Repr, DecidableEq

inductive DependsOnValue where
  | strVal (s : String)
  | listVal (l : List String)
  deriving Repr, DecidableEq

/-- A template resource (`Type` is a reserved word in Lean). -/
structure TemplateResource where
  Type' : String
  Properties : Option (List (String × Json)) := none
  DependsOn : Option DependsOnValue := none
  deriving Repr

structure TemplateDocument where
  Resources : List (String × TemplateResource)
  deriving Repr

structure StackRecord where
  stackId : String
  stackName : String
  templateBody : TemplateDocument
  creationTime : String
  stackStatus : String
  stackStatusReason : Option String := none
  resources : List ResourceRecord
  events : List StackEvent
  creationOrder : List String
  deriving Repr

/-- The non-stack backends plus the `randomUUID` counter. -/
structure Backends where
  lambda : LambdaState
  logs : LogsState
  s3 : S3State
  uuidCtr : Nat
  deriving Repr

/-- The full emulator state: sub-backends plus the `stacksByName` map. -/
structure MicroState where
  bk : Backends
  stacksByName : List (String × StackRecord)
  deriving Repr

def cfnValidationError (message : String) : HttpError :=
  ⟨400, "ValidationError", message⟩

def LAMBDA_ALLOWED_PROPERTIES : List String :=
  ["FunctionName", "Runtime", "Role", "Handler", "Code", "Timeout", "Environment"]
def LOG_GROUP_ALLOWED_PROPERTIES : List String := ["LogGroupName", "RetentionInDays"]
def S3_BUCKET_ALLOWED_PROPERTIES : List String := ["BucketName"]

def isAsciiLetter (c : Char) : Bool :=
  (('A' ≤ c) && (c ≤ 'Z')) || (('a' ≤ c) && (c ≤ 'z'))

def isAsciiDigit (c : Char) : Bool := ('0' ≤ c) && (c ≤ '9')

/-- `/^[a-zA-Z][a-zA-Z0-9-]*$/`. -/
def matchesStackNameRegex (s : String) : Bool :=
  match s.toList with
  | [] => false
  | c :: rest => isAsciiLetter c && rest.all (fun c => isAsciiLetter c || isAsciiDigit c || c = '-')

def validateStackName (stackName : String) : Except HttpError Unit :=
  if stackName = "" || decide (stackName.toList.length > 128) ||
      !(matchesStackNameRegex stackName) then
    Except.error (cfnValidationError ("Invalid stack name: " ++ stackName))
  else Except.ok ()

def validateAllowedProperties (logicalId resourceType : String)
    (properties : List (String × Json)) (allowed : List String) : Except HttpError Unit :=
  match properties.find? (fun p => !(allowed.contains p.1)) with
  | some p => Except.error (cfnValidationError
      ("Template format error: Unsupported property on " ++ logicalId ++ " (" ++
        resourceType ++ "): " ++ p.1))
  | none => Except.ok ()

def requireRecordProperty (properties : List (String × Json)) (key logicalId resourceType : String) :
    Except HttpError (List (String × Json)) :=
  match jsMapGet key properties with
  | some (Json.obj fields) => Except.ok fields
  | _ => Except.error (cfnValidationError
      ("Template format error: Property " ++ key ++ " on " ++ logicalId ++ " (" ++
        resourceType ++ ") must be an object"))

def requireStringProperty (properties : List (String × Json)) (key logicalId resourceType : String) :
    Except HttpError String :=
  match jsMapGet key properties with
  | some (Json.str v) =>
    if v = "" then
      Except.error (cfnValidationError
        ("Template format error: Property " ++ key ++ " on " ++ logicalId ++ " (" ++
          resourceType ++ ") must be a non-empty string"))
    else Except.ok v
  | _ => Except.error (cfnValidationError
      ("Template format error: Property " ++ key ++ " on " ++ logicalId ++ " (" ++
        resourceType ++ ") must be a non-empty string"))

def validateProperties (logicalId resourceType : String) (properties : List (String × Json)) :
    Except HttpError Unit := do
  if resourceType = "AWS::Lambda::Function" then
    let _ ← validateAllowedProperties logicalId resourceType properties LAMBDA_ALLOWED_PROPERTIES
    let _ ← requireStringProperty properties "FunctionName" logicalId resourceType
    let _ ← requireStringProperty properties "Runtime" logicalId resourceType
    let _ ← requireStringProperty properties "Role" logicalId resourceType
    let _ ← requireStringProperty properties "Handler" logicalId resourceType
    let code ← requireRecordProperty properties "Code" logicalId resourceType
    let codeKeys := code.map Prod.fst
    if !(codeKeys.contains "ZipFile") then
      Except.error (cfnValidationError
        ("Template format error: Unsupported or missing property on " ++ logicalId ++ " (" ++
          resourceType ++ "): Code.ZipFile"))
    else
      match codeKeys.find? (fun key => key ≠ "ZipFile") with
      | some key => Except.error (cfnValidationError
          ("Template format error: Unsupported property on " ++ logicalId ++ " (" ++
            resourceType ++ "): Code." ++ key))
      | none =>
        match jsMapGet "Environment" properties with
        | none => Except.ok ()
        | some _ => do
          let env ← requireRecordProperty properties "Environment" logicalId resourceType
          match (env.map Prod.fst).find? (fun key => key ≠ "Variables") with
          | some key => Except.error (cfnValidationError
              ("Template format error: Unsupported property on " ++ logicalId ++ " (" ++
                resourceType ++ "): Environment." ++ key))
          | none => Except.ok ()
  else if resourceType = "AWS::Logs::LogGroup" then do
    let _ ← validateAllowedProperties logicalId resourceType properties LOG_GROUP_ALLOWED_PROPERTIES
    let _ ← requireStringProperty properties "LogGroupName" logicalId resourceType
    Except.ok ()
  else if resourceType = "AWS::S3::Bucket" then do
    let _ ← validateAllowedProperties logicalId resourceType properties S3_BUCKET_ALLOWED_PROPERTIES
    let _ ← requireStringProperty properties "BucketName" logicalId resourceType
    Except.ok ()
  else
    -- Unsupported types fail during create to reflect stack failure behavior.
    Except.ok ()

def dependsOnValues : Option DependsOnValue → List String
  | none => []
  | some (DependsOnValue.strVal s) => [s]
  | some (DependsOnValue.listVal l) => l

def validateDependsOn (logicalId : String) (dependsOn : Option DependsOnValue)
    (resources : List (String × TemplateResource)) : Except HttpError Unit :=
  match dependsOn with
  | none => Except.ok ()
  | some v =>
    let values := dependsOnValues (some v)
    if values.isEmpty || values.any (fun s => s = "") then
      Except.error (cfnValidationError
        ("Template format error: DependsOn on " ++ logicalId ++ " must be string or string[]"))
    else
      match values.find? (fun dep => !(jsMapHas dep resources)) with
      | some dep => Except.error (cfnValidationError
          ("Template format error: DependsOn target " ++ dep ++ " does not exist"))
      | none => Except.ok ()

def validateResourcesList (all : List (String × TemplateResource)) :
    List (String × TemplateResource) → Except HttpError Unit
  | [] => Except.ok ()
  | (logicalId, resource) :: rest => do
    if resource.Type' = "" then
      Except.error (cfnValidationError
        ("Template format error: Resource " ++ logicalId ++ " is missing Type"))
    else do
      let _ ← validateDependsOn logicalId resource.DependsOn all
      let _ ← validateProperties logicalId resource.Type' (resource.Properties.getD [])
      validateResourcesList all rest

def validateTemplate (template : TemplateDocument) : Except HttpError Unit :=
  validateResourcesList template.Resources template.Resources

/-- The depth-first `visit` of `computeCreationOrder`, threading the
`order` list and the `visiting`/`visited` state map.  The fuel only bounds
the recursion depth: every nested call targets a distinct yet-unmarked
logical id, so with `resources.length + 1` fuel the zero branch is
unreachable (it reuses the circular-reference error it would have hit). -/
def visitResource (resources : List (String × TemplateResource)) :
    Nat → String → List String × List (String × String) →
    Except HttpError (List String × List (String × String))
  | 0, _, _ =>
    Except.error (cfnValidationError
      "Template format error: circular DependsOn reference detected")
  | fuel + 1, logicalId, os =>
    match jsMapGet logicalId os.2 with
    | some "visited" => Except.ok os
    | some _ => Except.error (cfnValidationError
        "Template format error: circular DependsOn reference detected")
    | none =>
      let state1 := jsMapSet logicalId "visiting" os.2
      match jsMapGet logicalId resources with
      | none => Except.error (cfnValidationError
          ("Template format error: missing resource " ++ logicalId))
      | some resource => do
        let os1 ← (dependsOnValues resource.DependsOn).foldlM
          (fun acc dep => visitResource resources fuel dep acc) (os.1, state1)
        Except.ok (os1.1 ++ [logicalId], jsMapSet logicalId "visited" os1.2)

def computeCreationOrder (resources : List (String × TemplateResource)) :
    Except HttpError (List String) := do
  let os ← (resources.map Prod.fst).foldlM
    (fun acc logicalId => visitResource resources (resources.length + 1) logicalId acc)
    ([], [])
  Except.ok os.1

def resolveRef (value : Json) (stack : StackRecord) : Except HttpError String :=
  match value with
  | Json.str s =>
    if s = "" then Except.error (cfnValidationError "Ref must be a non-empty string")
    else
      match stack.resources.find? (fun item =>
          item.logicalResourceId == s && item.resourceStatus == "CREATE_COMPLETE") with
      | some resource => Except.ok resource.physicalResourceId
      | none => Except.error (cfnValidationError
          ("Ref target does not exist or is unresolved: " ++ s))
  | _ => Except.error (cfnValidationError "Ref must be a non-empty string")

/-- The logicalId/attrName extraction of `resolveGetAtt` (a dotted
string of exactly two parts, or a two-string array). -/
def getAttParts : Json → Option (String × String)
  | Json.str s =>
    match jsSplitDot s with
    | [a, b] => some (a, b)
    | _ => none
  | Json.arr [Json.str a, Json.str b] => some (a, b)
  | _ => none

def resolveGetAtt (value : Json) (stack : StackRecord) : Except HttpError String :=
  match getAttParts value with
  | none => Except.error (cfnValidationError "Fn::GetAtt must be a two-part value")
  | some (logicalId, attrName) =>
    -- falsiness check on both parts: empty parts are falsy
    if logicalId = "" || attrName = "" then
      Except.error (cfnValidationError "Fn::GetAtt must be a two-part value")
    else
      match stack.resources.find? (fun item =>
          item.logicalResourceId == logicalId && item.resourceStatus == "CREATE_COMPLETE") with
      | none => Except.error (cfnValidationError
          ("Fn::GetAtt target does not exist or is unresolved: " ++ logicalId))
      | some resource =>
        if attrName ≠ "Arn" then
          Except.error (cfnValidationError
            ("Unsupported attribute " ++ attrName ++ " on " ++ logicalId))
        else if resource.resourceType = "AWS::Lambda::Function" then
          Except.ok ("arn:aws:lambda:us-east-1:000000000000:function:" ++
            resource.physicalResourceId)
        else if resource.resourceType = "AWS::Logs::LogGroup" then
          Except.ok ("arn:aws:logs:us-east-1:000000000000:log-group:" ++
            resource.physicalResourceId)
        else if resource.resourceType = "AWS::S3::Bucket" then
          Except.ok ("arn:aws:s3:::" ++ resource.physicalResourceId)
        else
          Except.error (cfnValidationError
            ("Unsupported Fn::GetAtt target type: " ++ resource.resourceType))

def startsWithFn (key : String) : Bool := jsStartsWith key "Fn::"

mutual
def resolveValue (stack : StackRecord) : Json → Except HttpError Json
  | Json.null => Except.ok Json.null
  | Json.bool b => Except.ok (Json.bool b)
  | Json.num n => Except.ok (Json.num n)
  | Json.str s => Except.ok (Json.str s)
  | Json.arr items => do
    let resolved ← resolveList stack items
    Except.ok (Json.arr resolved)
  | Json.obj [(k, v)] =>
    if k = "Ref" then do
      let physicalId ← resolveRef v stack
      Except.ok (Json.str physicalId)
    else if k = "Fn::GetAtt" then do
      let arn ← resolveGetAtt v stack
      Except.ok (Json.str arn)
    else if startsWithFn k then
      Except.error (cfnValidationError ("Unsupported intrinsic function: " ++ k))
    else do
      let fields1 ← resolveFields stack [(k, v)]
      Except.ok (Json.obj fields1)
  | Json.obj fields =>
    match fields.find? (fun p => startsWithFn p.1) with
    | some p => Except.error (cfnValidationError
        ("Unsupported intrinsic function: " ++ p.1))
    | none => do
      let fields1 ← resolveFields stack fields
      Except.ok (Json.obj fields1)
termination_by structural j => j

def resolveList (stack : StackRecord) : List Json → Except HttpError (List Json)
  | [] => Except.ok []
  | x :: xs => do
    let x1 ← resolveValue stack x
    let xs1 ← resolveList stack xs
    Except.ok (x1 :: xs1)
termination_by structural l => l

def resolveFields (stack : StackRecord) :
    List (String × Json) → Except HttpError (List (String × Json))
  | [] => Except.ok []
  | (k, v) :: rest => do
    let v1 ← resolveValue stack v
    let rest1 ← resolveFields stack rest
    Except.ok ((k, v1) :: rest1)
termination_by structural l => l
end

/-- Property access on a resolved value (`as JsonRecord`): a non-object
yields no fields, as property reads on it give `undefined`. -/
def jsonFields : Json → List (String × Json)
  | Json.obj fields => fields
  | _ => []

def resolveProperties (stack : StackRecord) (resource : TemplateResource) :
    Except HttpError (List (String × Json)) := do
  let v ← resolveValue stack (Json.obj (resource.Properties.getD []))
  Except.ok (jsonFields v)

def requireStringValue (value : Option Json) (fieldName logicalId : String) :
    Except HttpError String :=
  match value with
  | some (Json.str s) =>
    if s = "" then
      Except.error (cfnValidationError
        ("Template format error: " ++ fieldName ++ " on " ++ logicalId ++
          " must be a non-empty string"))
    else Except.ok s
  | _ => Except.error (cfnValidationError
      ("Template format error: " ++ fieldName ++ " on " ++ logicalId ++
        " must be a non-empty string"))

def requireRecordValue (value : Option Json) (fieldName logicalId : String) :
    Except HttpError (List (String × Json)) :=
  match value with
  | some (Json.obj fields) => Except.ok fields
  | _ => Except.error (cfnValidationError
      ("Template format error: " ++ fieldName ++ " on " ++ logicalId ++ " must be an object"))

def stringMapOfFields (fieldName logicalId : String) :
    List (String × Json) → Except HttpError (List (String × String))
  | [] => Except.ok []
  | (key, Json.str s) :: rest => do
    let out ← stringMapOfFields fieldName logicalId rest
    Except.ok ((key, s) :: out)
  | (key, _) :: _ => Except.error (cfnValidationError
      ("Template format error: " ++ fieldName ++ "." ++ key ++ " on " ++ logicalId ++
        " must be a string"))

def requireStringMapValue (value : Option Json) (fieldName logicalId : String) :
    Except HttpError (List (String × String)) := do
  let fields ← requireRecordValue value fieldName logicalId
  stringMapOfFields fieldName logicalId fields

/-- `randomUUID()` modelled by the `Backends` counter. -/
def freshUuid (bk : Backends) : String × Backends :=
  ("uuid-" ++ toString bk.uuidCtr, { bk with uuidCtr := bk.uuidCtr + 1 })

/-- `...(reason ? { resourceStatusReason: reason } : {})`: an absent or
empty reason yields no field. -/
def truthyReason : Option String → Option String
  | some r => if r = "" then none else some r
  | none => none

def addStackEvent (prims : Prims) (bk : Backends) (stack : StackRecord)
    (status : String) (reason : Option String) : Backends × StackRecord :=
  let (eventId, bk1) := freshUuid bk
  (bk1, { stack with events :=
    { eventId := eventId
      stackName := stack.stackName
      stackId := stack.stackId
      logicalResourceId := stack.stackName
      physicalResourceId := stack.stackId
      resourceType := "AWS::CloudFormation::Stack"
      resourceStatus := status
      resourceStatusReason := truthyReason reason
      timestamp := prims.nowIso } :: stack.events })

def addResourceEvent (prims : Prims) (bk : Backends) (stack : StackRecord)
    (resource : ResourceRecord) (status : String) (reason : Option String) :
    Backends × StackRecord :=
  let (eventId, bk1) := freshUuid bk
  (bk1, { stack with events :=
    { eventId := eventId
      stackName := stack.stackName
      stackId := stack.stackId
      logicalResourceId := resource.logicalResourceId
      physicalResourceId := resource.physicalResourceId
      resourceType := resource.resourceType
      resourceStatus := status
      resourceStatusReason := truthyReason reason
      timestamp := prims.nowIso } :: stack.events })

def createLambdaZip (prims : Prims) (source : String) : Bytes := prims.makeZip source

/-- `createResource` returns the physical id and the updated sub-backends.
The final `throw new Error(...)` is a plain `Error`: no `code` property,
modelled as an empty code (see `isIgnorableDeleteError`). -/
def createResource (prims : Prims) (bk : Backends) (stack : StackRecord)
    (logicalId : String) (resource : TemplateResource) :
    Except HttpError (String × Backends) :=
  if resource.Type' = "AWS::Logs::LogGroup" then do
    let resolvedProperties ← resolveProperties stack resource
    let logGroupName ← requireStringValue (jsMapGet "LogGroupName" resolvedProperties)
      "LogGroupName" logicalId
    let retentionInDays ← match jsMapGet "RetentionInDays" resolvedProperties with
      | none => Except.ok (none : Option Int)
      | some (Json.num n) => Except.ok (some n)
      | some _ => Except.error (cfnValidationError
          ("Template format error: RetentionInDays on " ++ logicalId ++ " must be a number"))
    let logs1 ← createLogGroup prims.nowMs bk.logs logGroupName retentionInDays
    Except.ok (logGroupName, { bk with logs := logs1 })
  else if resource.Type' = "AWS::Lambda::Function" then do
    let resolvedProperties ← resolveProperties stack resource
    let functionName ← requireStringValue (jsMapGet "FunctionName" resolvedProperties)
      "FunctionName" logicalId
    let runtime ← requireStringValue (jsMapGet "Runtime" resolvedProperties)
      "Runtime" logicalId
    let role ← requireStringValue (jsMapGet "Role" resolvedProperties) "Role" logicalId
    let handler ← requireStringValue (jsMapGet "Handler" resolvedProperties)
      "Handler" logicalId
    let timeout ← match jsMapGet "Timeout" resolvedProperties with
      | none => Except.ok (none : Option Int)
      | some (Json.num n) => Except.ok (some n)
      | some _ => Except.error (cfnValidationError
          ("Template format error: Timeout on " ++ logicalId ++ " must be a number"))
    let code ← requireRecordValue (jsMapGet "Code" resolvedProperties) "Code" logicalId
    let inlineSource ← requireStringValue (jsMapGet "ZipFile" code) "Code.ZipFile" logicalId
    let environment ← match jsMapGet "Environment" resolvedProperties with
      | none => Except.ok (none : Option (List (String × Json)))
      | some _ => do
        let env ← requireRecordValue (jsMapGet "Environment" resolvedProperties)
          "Environment" logicalId
        Except.ok (some env)
    let envVars ← match environment with
      | some env =>
        match jsMapGet "Variables" env with
        | none => Except.ok (none : Option (List (String × String)))
        | some vars => do
          let m ← requireStringMapValue (some vars) "Environment.Variables" logicalId
          Except.ok (some m)
      | none => Except.ok none
    let zipBuffer := createLambdaZip prims inlineSource
    let input : CreateFunctionInput :=
      { FunctionName := functionName
        Runtime := runtime
        Role := role
        Handler := handler
        Timeout := timeout
        Environment := envVars.map (fun m => { Variables := some m })
        Code := some { ZipFile := some (prims.b64encode zipBuffer) } }
    let (_, lambda1) ← createFunction prims bk.lambda input
    Except.ok (functionName, { bk with lambda := lambda1 })
  else if resource.Type' = "AWS::S3::Bucket" then do
    let resolvedProperties ← resolveProperties stack resource
    let bucketName ← requireStringValue (jsMapGet "BucketName" resolvedProperties)
      "BucketName" logicalId
    let (_, s3v1) ← createBucket prims bk.s3 bucketName
    Except.ok (bucketName, { bk with s3 := s3v1 })
  else
    Except.error ⟨500, "", "Unsupported resource type: " ++ resource.Type'⟩

def toStackSummary (stack : StackRecord) : StackSummary :=
  { stackId := stack.stackId
    stackName := stack.stackName
    creationTime := stack.creationTime
    stackStatus := stack.stackStatus
    stackStatusReason := truthyReason stack.stackStatusReason }

/-- The body of one `createStack` loop iteration: push the placeholder,
try `createResource`, and mutate the placeholder to `CREATE_COMPLETE` or
to `CREATE_FAILED` (also failing the stack).  The boolean reports
whether the loop continues (`true`) or stops on the failure (`false`). -/
def createResourceStep (prims : Prims) (bk : Backends) (stack : StackRecord)
    (logicalResourceId : String) (templateResource : TemplateResource) :
    Backends × StackRecord × Bool :=
  let placeholder : ResourceRecord :=
    { stackName := stack.stackName
      stackId := stack.stackId
      logicalResourceId := logicalResourceId
      physicalResourceId := logicalResourceId
      resourceType := templateResource.Type'
      resourceStatus := "CREATE_IN_PROGRESS"
      resourceStatusReason := none
      timestamp := prims.nowIso }
  let stack1 := { stack with resources := stack.resources ++ [placeholder] }
  let (bk1, stack2) := addResourceEvent prims bk stack1 placeholder "CREATE_IN_PROGRESS" none
  match createResource prims bk1 stack2 logicalResourceId templateResource with
  | Except.ok (physicalResourceId, bk2) =>
    -- the in-place mutation of `placeholder` (the last pushed record)
    let completed := { placeholder with
      physicalResourceId := physicalResourceId
      resourceStatus := "CREATE_COMPLETE"
      timestamp := prims.nowIso }
    let stack3 := { stack2 with
      resources := stack.resources ++ [completed]
      creationOrder := stack2.creationOrder ++ [logicalResourceId] }
    let (bk3, stack4) := addResourceEvent prims bk2 stack3 completed "CREATE_COMPLETE" none
    (bk3, stack4, true)
  | Except.error e =>
    let reason := e.message
    let failed := { placeholder with
      resourceStatus := "CREATE_FAILED"
      resourceStatusReason := some reason
      timestamp := prims.nowIso }
    let stack3 := { stack2 with resources := stack.resources ++ [failed] }
    -- a throwing createResource leaves the sub-backends untouched
    let (bk3, stack4) := addResourceEvent prims bk1 stack3 failed "CREATE_FAILED" (some reason)
    let stack5 := { stack4 with
      stackStatus := "CREATE_FAILED"
      stackStatusReason := some reason }
    let (bk4, stack6) := addStackEvent prims bk3 stack5 "CREATE_FAILED" (some reason)
    (bk4, stack6, false)

/-- The `for (const logicalResourceId of order)` loop of `createStack`,
threading the mutated local stack record; the `Except` result is `ok`
even for `CREATE_FAILED` (the source returns a summary), and `error`
only for the `Resource not found in template` throw. -/
def createStackLoop (prims : Prims) (template : TemplateDocument) :
    Backends → StackRecord → List String → Backends × StackRecord × Except HttpError Unit
  | bk, stack, [] =>
    let stack1 := { stack with stackStatus := "CREATE_COMPLETE" }
    let (bk1, stack2) := addStackEvent prims bk stack1 "CREATE_COMPLETE" none
    (bk1, stack2, Except.ok ())
  | bk, stack, logicalResourceId :: rest =>
    match jsMapGet logicalResourceId template.Resources with
    | none => (bk, stack, Except.error (cfnValidationError
        ("Resource not found in template: " ++ logicalResourceId)))
    | some templateResource =>
      match createResourceStep prims bk stack logicalResourceId templateResource with
      | (bk1, stack1, true) => createStackLoop prims template bk1 stack1 rest
      | (bk1, stack1, false) => (bk1, stack1, Except.ok ())

/-- `createStack`; the template arrives parsed (see the section comment).
The record is inserted into `stacksByName` before the loop and the local
record is written back on every exit, mirroring the source's aliasing. -/
def createStack (prims : Prims) (ms : MicroState) (stackName : String)
    (template : TemplateDocument) : MicroState × Except HttpError StackSummary :=
  match validateStackName stackName with
  | Except.error e => (ms, Except.error e)
  | Except.ok _ =>
  if jsMapHas stackName ms.stacksByName then
    (ms, Except.error (cfnValidationError ("Stack with id " ++ stackName ++ " already exists")))
  else
    match validateTemplate template with
    | Except.error e => (ms, Except.error e)
    | Except.ok _ =>
      match computeCreationOrder template.Resources with
      | Except.error e => (ms, Except.error e)
      | Except.ok order =>
        let (uuid, bk0) := freshUuid ms.bk
        let stackId := "arn:aws:cloudformation:us-east-1:000000000000:stack/" ++
          stackName ++ "/" ++ uuid
        let stack0 : StackRecord :=
          { stackId := stackId
            stackName := stackName
            templateBody := template
            creationTime := prims.nowIso
            stackStatus := "CREATE_IN_PROGRESS"
            stackStatusReason := none
            resources := []
            events := []
            creationOrder := [] }
        let (bk1, stack1) := addStackEvent prims bk0 stack0 "CREATE_IN_PROGRESS" none
        match createStackLoop prims template bk1 stack1 order with
        | (bk2, stack2, Except.ok _) =>
          ({ bk := bk2, stacksByName := jsMapSet stackName stack2 ms.stacksByName },
            Except.ok (toStackSummary stack2))
        | (bk2, stack2, Except.error e) =>
          ({ bk := bk2, stacksByName := jsMapSet stackName stack2 ms.stacksByName },
            Except.error e)

def requireStack (ms : MicroState) (stackName : String) : Except HttpError StackRecord :=
  match jsMapGet stackName ms.stacksByName with
  | some stack => Except.ok stack
  | none => Except.error (cfnValidationError
      ("Stack with id " ++ stackName ++ " does not exist"))

/-- `describeStacks(stackName?)`; `if (stackName)` is a truthiness test,
so an empty string behaves like an absent argument. -/
def describeStacks (ms : MicroState) (stackName : Option String) :
    Except HttpError (List StackSummary) :=
  match stackName with
  | some name =>
    if name = "" then Except.ok (ms.stacksByName.map (fun p => toStackSummary p.2))
    else do
      let stack ← requireStack ms name
      Except.ok [toStackSummary stack]
  | none => Except.ok (ms.stacksByName.map (fun p => toStackSummary p.2))

def describeStackResources (ms : MicroState) (stackName : String) :
    Except HttpError (List ResourceRecord) := do
  let stack ← requireStack ms stackName
  Except.ok stack.resources

def deleteResource (bk : Backends) (resource : ResourceRecord) : Except HttpError Backends :=
  if resource.resourceType = "AWS::Lambda::Function" then do
    let lambda1 ← deleteFunction bk.lambda resource.physicalResourceId
    Except.ok { bk with lambda := lambda1 }
  else if resource.resourceType = "AWS::Logs::LogGroup" then do
    let logs1 ← deleteLogGroup bk.logs resource.physicalResourceId
    Except.ok { bk with logs := logs1 }
  else if resource.resourceType = "AWS::S3::Bucket" then do
    let s3v1 ← deleteBucket bk.s3 resource.physicalResourceId
    Except.ok { bk with s3 := s3v1 }
  else Except.ok bk

/-- `isIgnorableDeleteError`; a missing (or non-string) `code` property is
modelled as the empty code, which the source's `!code` also rejects. -/
def isIgnorableDeleteError (resourceType : String) (e : HttpError) : Bool :=
  if e.code = "" then false
  else if resourceType = "AWS::Lambda::Function" && e.code = "ResourceNotFoundException" then true
  else if resourceType = "AWS::Logs::LogGroup" && e.code = "ResourceNotFoundException" then true
  else if resourceType = "AWS::S3::Bucket" && e.code = "NoSuchBucket" then true
  else false

/-- In-place mutation of the first record matching `p` (the object found
by `Array.prototype.find`). -/
def updFirst (p : α → Bool) (f : α → α) : List α → List α
  | [] => []
  | x :: xs => if p x then f x :: xs else x :: updFirst p f xs

/-- The logical-id match predicate of the `find` in
`deleteResourcesByOrder`. -/
def lidMatches (logicalResourceId : String) (item : ResourceRecord) : Bool :=
  item.logicalResourceId == logicalResourceId

/-- The body of one `deleteResourcesByOrder` iteration for a found
resource record; the third component is the failure reason
(`undefined` on success or on an ignorable delete error). -/
def deleteResourceStep (prims : Prims) (bk : Backends) (stack : StackRecord)
    (logicalResourceId : String) (resource : ResourceRecord) :
    Backends × StackRecord × Option String :=
  let inProgress := { resource with
    resourceStatus := "DELETE_IN_PROGRESS"
    timestamp := prims.nowIso }
  let stack1 := { stack with
    resources := updFirst (lidMatches logicalResourceId) (fun _ => inProgress) stack.resources }
  let (bk1, stack2) := addResourceEvent prims bk stack1 inProgress "DELETE_IN_PROGRESS" none
  match deleteResource bk1 inProgress with
  | Except.ok bk2 =>
    let completed := { inProgress with
      resourceStatus := "DELETE_COMPLETE"
      resourceStatusReason := none
      timestamp := prims.nowIso }
    let stack3 := { stack2 with
      resources := updFirst (lidMatches logicalResourceId) (fun _ => completed) stack2.resources }
    let (bk3, stack4) := addResourceEvent prims bk2 stack3 completed "DELETE_COMPLETE" none
    (bk3, stack4, none)
  | Except.error e =>
    -- a throwing deleteResource leaves the sub-backends untouched
    if isIgnorableDeleteError inProgress.resourceType e then
      let completed := { inProgress with
        resourceStatus := "DELETE_COMPLETE"
        resourceStatusReason := none
        timestamp := prims.nowIso }
      let stack3 := { stack2 with
        resources := updFirst (lidMatches logicalResourceId) (fun _ => completed) stack2.resources }
      let (bk3, stack4) := addResourceEvent prims bk1 stack3 completed "DELETE_COMPLETE" none
      (bk3, stack4, none)
    else
      let reason := e.message
      let failed := { inProgress with
        resourceStatus := "DELETE_FAILED"
        resourceStatusReason := some reason
        timestamp := prims.nowIso }
      let stack3 := { stack2 with
        resources := updFirst (lidMatches logicalResourceId) (fun _ => failed) stack2.resources }
      let (bk3, stack4) := addResourceEvent prims bk1 stack3 failed "DELETE_FAILED" (some reason)
      (bk3, stack4, some reason)

/-- `deleteResourcesByOrder`; the third component is the returned
`failedReason` (`undefined` on success).  Both branches of the source's
redundant `if (suppressFailure)` return the reason, so the flag is unused
here as well. -/
def deleteResourcesByOrder (prims : Prims) :
    Backends → StackRecord → List String → Bool → Backends × StackRecord × Option String
  | bk, stack, [], _ => (bk, stack, none)
  | bk, stack, logicalResourceId :: rest, suppressFailure =>
    match stack.resources.find? (lidMatches logicalResourceId) with
    | none => deleteResourcesByOrder prims bk stack rest suppressFailure
    | some resource =>
      match deleteResourceStep prims bk stack logicalResourceId resource with
      | (bk1, stack1, none) => deleteResourcesByOrder prims bk1 stack1 rest suppressFailure
      | (bk1, stack1, some reason) => (bk1, stack1, some reason)

/-- `deleteStack`; the map alias of the mutated record is written back on
every exit, and the record is never removed from the map. -/
def deleteStack (prims : Prims) (ms : MicroState) (stackName : String) :
    MicroState × Except HttpError Unit :=
  match jsMapGet stackName ms.stacksByName with
  | none => (ms, Except.error (cfnValidationError
      ("Stack with id " ++ stackName ++ " does not exist")))
  | some stack =>
    if stack.stackStatus = "DELETE_COMPLETE" then (ms, Except.ok ())
    else
      let stack1 := { stack with stackStatus := "DELETE_IN_PROGRESS" }
      let (bk1, stack2) := addStackEvent prims ms.bk stack1 "DELETE_IN_PROGRESS" none
      match deleteResourcesByOrder prims bk1 stack2 stack2.creationOrder.reverse false with
      | (bk2, stack3, some failedReason) =>
        let stack4 := { stack3 with
          stackStatus := "DELETE_FAILED"
          stackStatusReason := some failedReason }
        let (bk3, stack5) := addStackEvent prims bk2 stack4 "DELETE_FAILED" (some failedReason)
        ({ bk := bk3, stacksByName := jsMapSet stackName stack5 ms.stacksByName }, Except.ok ())
      | (bk2, stack3, none) =>
        let stack4 := { stack3 with
          stackStatus := "DELETE_COMPLETE"
          stackStatusReason := none }
        let (bk3, stack5) := addStackEvent prims bk2 stack4 "DELETE_COMPLETE" none
        ({ bk := bk3, stacksByName := jsMapSet stackName stack5 ms.stacksByName }, Except.ok ())

theorem jsMapGet_mem_stacks {k : String} {v : StackRecord} {m : List (String × StackRecord)}
    (h : jsMapGet k m = some v) : (k, v) ∈ m := jsMapGet_mem h

/-- C10: `deleteStack` on a stack already in `DELETE_COMPLETE` returns
immediately with the whole state unchanged (no events, no status change),
and the record stays in the store: `describeStacks` still returns its
summary, with status `DELETE_COMPLETE`. -/
theorem C10_delete_complete_idempotent (prims : Prims) (ms : MicroState)
    (stackName : String) (stack : StackRecord)
    (h : jsMapGet stackName ms.stacksByName = some stack)
    (hstatus : stack.stackStatus = "DELETE_COMPLETE") :
    deleteStack prims ms stackName = (ms, Except.ok ()) ∧
    ∃ summaries, describeStacks ms (some stackName) = Except.ok summaries ∧
      toStackSummary stack ∈ summaries ∧
      (toStackSummary stack).stackStatus = "DELETE_COMPLETE" := by
  constructor
  · simp only [deleteStack, h]
    rw [if_pos hstatus]
  · by_cases hname : stackName = ""
    · subst hname
      refine ⟨ms.stacksByName.map (fun p => toStackSummary p.2), by simp [describeStacks], ?_, ?_⟩
      · exact List.mem_map_of_mem _ (jsMapGet_mem h)
      · simpa [toStackSummary] using hstatus
    · refine ⟨[toStackSummary stack], ?_, by simp, ?_⟩
      · simp [describeStacks, requireStack, h, hname, Bind.bind, Except.bind]
      · simpa [toStackSummary] using hstatus

def c10Stack : StackRecord :=
  { stackId := "arn:aws:cloudformation:us-east-1:000000000000:stack/done/uuid-0"
    stackName := "done"
    templateBody := ⟨[]⟩
    creationTime := "t"
    stackStatus := "DELETE_COMPLETE"
    stackStatusReason := none
    resources := []
    events := []
    creationOrder := [] }

def c10Ms : MicroState := ⟨⟨⟨[]⟩, ⟨[]⟩, ⟨[]⟩, 1⟩, [("done", c10Stack)]⟩

/-- Witness for C10 at a one-stack store. -/
theorem C10_delete_complete_idempotent_witness :
    jsMapGet "done" c10Ms.stacksByName = some c10Stack ∧
    c10Stack.stackStatus = "DELETE_COMPLETE" ∧
    (deleteStack witnessPrims c10Ms "done" = (c10Ms, Except.ok ()) ∧
      ∃ summaries, describeStacks c10Ms (some "done") = Except.ok summaries ∧
        toStackSummary c10Stack ∈ summaries ∧
        (toStackSummary c10Stack).stackStatus = "DELETE_COMPLETE") :=
  ⟨rfl, rfl, C10_delete_complete_idempotent witnessPrims c10Ms "done" c10Stack rfl rfl⟩

def c2Template : TemplateDocument :=
  ⟨[("Weird", { Type' := "AWS::SNS::Topic", Properties := none, DependsOn := none })]⟩

def c2Ms0 : MicroState := ⟨⟨⟨[]⟩, ⟨[]⟩, ⟨[]⟩, 0⟩, []⟩

def c2Ms1 : MicroState := (createStack witnessPrims c2Ms0 "demo" c2Template).1

/-- C2 counterexample: after creating a stack whose only resource has an
unsupported type (leaving it `CREATE_FAILED` and outside `creationOrder`),
`deleteStack` returns with the stack in `DELETE_COMPLETE` while that
resource record is still `CREATE_FAILED`, not `DELETE_COMPLETE`. -/
theorem C2_counterexample :
    (deleteStack witnessPrims c2Ms1 "demo").2 = Except.ok () ∧
    ((deleteStack witnessPrims c2Ms1 "demo").1.stacksByName.map
      (fun p => (p.1, p.2.stackStatus,
        p.2.resources.map (fun r => (r.logicalResourceId, r.resourceStatus)))))
      = [("demo", ("DELETE_COMPLETE", [("Weird", "CREATE_FAILED")]))] := by
  decide

theorem find?_decomp {α : Type} {p : α → Bool} {l : List α} {a : α}
    (h : l.find? p = some a) :
    ∃ l₁ l₂, l = l₁ ++ a :: l₂ ∧ (∀ x ∈ l₁, p x = false) ∧
      ∀ f : α → α, updFirst p f l = l₁ ++ f a :: l₂ := by
  induction l with
  | nil => simp at h
  | cons x xs ih =>
    by_cases hpx : p x = true
    · rw [List.find?_cons_of_pos _ hpx] at h
      obtain rfl : x = a := by injection h
      refine ⟨[], xs, rfl, by simp, fun f => ?_⟩
      simp [updFirst, hpx]
    · rw [List.find?_cons_of_neg _ hpx] at h
      obtain ⟨l₁, l₂, heq, hl₁, hupd⟩ := ih h
      refine ⟨x :: l₁, l₂, by rw [heq]; rfl, ?_, fun f => ?_⟩
      · intro y hy
        rcases List.mem_cons.mp hy with rfl | hy'
        · exact Bool.eq_false_iff.mpr hpx
        · exact hl₁ y hy'
      · simp [updFirst, hpx, hupd f]

theorem updFirst_append {α : Type} {p : α → Bool} {l₁ l₂ : List α} {b : α} (f : α → α)
    (h₁ : ∀ x ∈ l₁, p x = false) (hb : p b = true) :
    updFirst p f (l₁ ++ b :: l₂) = l₁ ++ f b :: l₂ := by
  induction l₁ with
  | nil => simp [updFirst, hb]
  | cons x xs ih =>
    have hx : p x = false := h₁ x (List.mem_cons_self x xs)
    simp only [List.cons_append, updFirst, hx, Bool.false_eq_true, if_false, List.cons.injEq,
      true_and]
    exact ih (fun y hy => h₁ y (List.mem_cons_of_mem x hy))

theorem lidMatches_iff {lid : String} {r : ResourceRecord} :
    lidMatches lid r = true ↔ r.logicalResourceId = lid := by
  simp [lidMatches]

/-- One delete iteration replaces the (unique) matching record in place,
keeps its logical id, and leaves it `DELETE_COMPLETE` whenever no failure
reason is returned. -/
theorem deleteResourceStep_resources (prims : Prims) (bk : Backends) (stack : StackRecord)
    (lid : String) (resource : ResourceRecord) (l₁ l₂ : List ResourceRecord)
    (heq : stack.resources = l₁ ++ resource :: l₂)
    (hl₁ : ∀ x ∈ l₁, lidMatches lid x = false)
    (hp : lidMatches lid resource = true) :
    ∃ rec1, (deleteResourceStep prims bk stack lid resource).2.1.resources = l₁ ++ rec1 :: l₂ ∧
      rec1.logicalResourceId = resource.logicalResourceId ∧
      ((deleteResourceStep prims bk stack lid resource).2.2 = none →
        rec1.resourceStatus = "DELETE_COMPLETE") := by
  have hpIn : lidMatches lid { resource with
      resourceStatus := "DELETE_IN_PROGRESS", timestamp := prims.nowIso } = true := by
    simpa [lidMatches] using hp
  simp only [deleteResourceStep, addResourceEvent, freshUuid, heq,
    updFirst_append _ hl₁ hp]
  generalize hinP : ({ resource with resourceStatus := "DELETE_IN_PROGRESS", timestamp := prims.nowIso } : ResourceRecord) = inP
  have hpIn2 : lidMatches lid inP = true := hinP ▸ hpIn
  cases hdr : deleteResource { bk with uuidCtr := bk.uuidCtr + 1 } inP with
  | ok bk2 =>
    refine ⟨{ inP with resourceStatus := "DELETE_COMPLETE", resourceStatusReason := none, timestamp := prims.nowIso }, ?_, ?_, fun _ => rfl⟩
    · simp [← hinP, updFirst_append _ hl₁ hpIn, updFirst_append _ hl₁ hpIn2]
    · rw [← hinP]
  | error e =>
    by_cases hig : isIgnorableDeleteError resource.resourceType e = true
    · simp only [hig, if_true]
      refine ⟨{ inP with resourceStatus := "DELETE_COMPLETE", resourceStatusReason := none, timestamp := prims.nowIso }, ?_, ?_, fun _ => rfl⟩
      · simp [← hinP, updFirst_append _ hl₁ hpIn, updFirst_append _ hl₁ hpIn2]
      · rw [← hinP]
    · simp only [Bool.eq_false_iff.mpr hig, Bool.false_eq_true, if_false]
      refine ⟨{ inP with resourceStatus := "DELETE_FAILED", resourceStatusReason := some e.message, timestamp := prims.nowIso }, ?_, ?_, fun h => ?_⟩
      · simp [← hinP, updFirst_append _ hl₁ hpIn, updFirst_append _ hl₁ hpIn2]
      · rw [← hinP]
      · exact absurd h (by simp)

/-- `deleteResourcesByOrder` without a failure reason leaves the logical
ids of the resource list unchanged, marks every record whose id was
walked `DELETE_COMPLETE`, and does not touch any other record (given
per-stack unique logical ids, which `createStack` guarantees). -/
theorem deleteResourcesByOrder_complete (prims : Prims) :
    ∀ (lids : List String) (bk : Backends) (stack : StackRecord) (sup : Bool),
    (stack.resources.map fun r => r.logicalResourceId).Nodup →
    (deleteResourcesByOrder prims bk stack lids sup).2.2 = none →
    ((deleteResourcesByOrder prims bk stack lids sup).2.1.resources.map
        fun r => r.logicalResourceId) =
      (stack.resources.map fun r => r.logicalResourceId) ∧
    ∀ r ∈ (deleteResourcesByOrder prims bk stack lids sup).2.1.resources,
      (r.logicalResourceId ∈ lids → r.resourceStatus = "DELETE_COMPLETE") ∧
      (r.logicalResourceId ∉ lids → r ∈ stack.resources) := by
  intro lids
  induction lids with
  | nil =>
    intro bk stack sup hnodup hok
    exact ⟨rfl, fun r hr => ⟨fun h => absurd h (List.not_mem_nil _), fun _ => hr⟩⟩
  | cons lid rest ih =>
    intro bk stack sup hnodup hok
    cases hfind : stack.resources.find? (lidMatches lid) with
    | none =>
      have hstep : deleteResourcesByOrder prims bk stack (lid :: rest) sup
          = deleteResourcesByOrder prims bk stack rest sup := by
        simp only [deleteResourcesByOrder, hfind]
      rw [hstep] at hok ⊢
      obtain ⟨hmap, hmem⟩ := ih bk stack sup hnodup hok
      refine ⟨hmap, fun r hr => ⟨?_, ?_⟩⟩
      · intro hin
        rcases List.mem_cons.mp hin with hl | hin'
        · by_cases hrest : r.logicalResourceId ∈ rest
          · exact (hmem r hr).1 hrest
          · have hrs : r ∈ stack.resources := (hmem r hr).2 hrest
            have hno := List.find?_eq_none.mp hfind r hrs
            exact absurd (lidMatches_iff.mpr hl) hno
        · exact (hmem r hr).1 hin'
      · intro hnin
        exact (hmem r hr).2 (fun hc => hnin (List.mem_cons_of_mem _ hc))
    | some resource =>
      obtain ⟨l₁, l₂, heq, hl₁, _⟩ := find?_decomp hfind
      have hpres : lidMatches lid resource = true := List.find?_some hfind
      have hlidres : resource.logicalResourceId = lid := lidMatches_iff.mp hpres
      obtain ⟨rec1, hres1, hlid1, hdc1⟩ :=
        deleteResourceStep_resources prims bk stack lid resource l₁ l₂ heq hl₁ hpres
      rcases hsr : deleteResourceStep prims bk stack lid resource with ⟨bk1, stack1, fr⟩
      rw [hsr] at hres1 hdc1
      have hstep : deleteResourcesByOrder prims bk stack (lid :: rest) sup
          = match fr with
            | none => deleteResourcesByOrder prims bk1 stack1 rest sup
            | some reason => (bk1, stack1, some reason) := by
        simp only [deleteResourcesByOrder, hfind, hsr]
        cases fr <;> rfl
      cases fr with
      | some reason =>
        rw [hstep] at hok
        simp at hok
      | none =>
        rw [hstep] at hok ⊢
        have hdc : rec1.resourceStatus = "DELETE_COMPLETE" := hdc1 rfl
        have hmapkeep : (stack1.resources.map fun r => r.logicalResourceId)
            = (stack.resources.map fun r => r.logicalResourceId) := by
          rw [hres1, heq]
          simp [hlid1]
        have hnodup1 : (stack1.resources.map fun r => r.logicalResourceId).Nodup := by
          rw [hmapkeep]; exact hnodup
        obtain ⟨hmap, hmem⟩ := ih bk1 stack1 sup hnodup1 hok
        refine ⟨by rw [hmap, hmapkeep], fun r hr => ⟨?_, ?_⟩⟩
        · intro hin
          rcases List.mem_cons.mp hin with hl | hin'
          · by_cases hrest : r.logicalResourceId ∈ rest
            · exact (hmem r hr).1 hrest
            · have hrs1 : r ∈ stack1.resources := (hmem r hr).2 hrest
              rw [hres1] at hrs1
              rcases List.mem_append.mp hrs1 with h1 | h2
              · exact absurd (lidMatches_iff.mpr hl) (by simp [hl₁ r h1])
              · rcases List.mem_cons.mp h2 with rfl | h3
                · exact hdc
                · exfalso
                  have hnd := hnodup
                  rw [heq] at hnd
                  simp only [List.map_append, List.map_cons] at hnd
                  have := (List.nodup_append.mp hnd).2.2
                  -- resource.logicalResourceId heads the right block, r sits in l₂
                  have hmemr : r.logicalResourceId ∈ l₂.map (fun r => r.logicalResourceId) :=
                    List.mem_map_of_mem _ h3
                  have hnd2 := (List.nodup_cons.mp (List.nodup_append.mp hnd).2.1).1
                  rw [hl, ← hlidres] at hmemr
                  exact hnd2 hmemr
          · exact (hmem r hr).1 hin'
        · intro hnin
          have hrs1 : r ∈ stack1.resources :=
            (hmem r hr).2 (fun hc => hnin (List.mem_cons_of_mem _ hc))
          rw [hres1] at hrs1
          rw [heq]
          rcases List.mem_append.mp hrs1 with h1 | h2
          · exact List.mem_append_left _ h1
          · rcases List.mem_cons.mp h2 with rfl | h3
            · exfalso
              apply hnin
              rw [hlid1, hlidres]
              exact List.mem_cons_self _ _
            · exact List.mem_append_right _ (List.mem_cons_of_mem _ h3)

/-- C2 (amended): when `deleteStack` returns with the stack in
`DELETE_COMPLETE`, every resource record whose logical id is in the
stack's `creationOrder` is `DELETE_COMPLETE`; records outside
`creationOrder` (e.g. ones left in `CREATE_FAILED`, which are never
added to it) keep their previous state untouched, because
`deleteResourcesByOrder` only walks `creationOrder`. -/
theorem C2_delete_completes_created_resources (prims : Prims) (ms : MicroState)
    (stackName : String) (stack : StackRecord) (ms' : MicroState)
    (h : jsMapGet stackName ms.stacksByName = some stack)
    (hnotdone : ¬ stack.stackStatus = "DELETE_COMPLETE")
    (hnodup : (stack.resources.map fun r => r.logicalResourceId).Nodup)
    (hdel : deleteStack prims ms stackName = (ms', Except.ok ())) :
    ∃ stack', jsMapGet stackName ms'.stacksByName = some stack' ∧
      (stack'.stackStatus = "DELETE_COMPLETE" →
        ∀ r ∈ stack'.resources,
          (r.logicalResourceId ∈ stack.creationOrder →
            r.resourceStatus = "DELETE_COMPLETE") ∧
          (r.logicalResourceId ∉ stack.creationOrder → r ∈ stack.resources)) := by
  simp only [deleteStack, h] at hdel
  rw [if_neg hnotdone] at hdel
  simp only [addStackEvent, freshUuid] at hdel
  split at hdel
  case _ bk2 stack3 failedReason heq =>
    have hms : _ = ms' := congrArg Prod.fst hdel
    subst hms
    refine ⟨_, jsMapGet_set_self stackName _ ms.stacksByName, fun hfalse => absurd hfalse ?_⟩
    simp
  case _ bk2 stack3 heq =>
    have hms : _ = ms' := congrArg Prod.fst hdel
    subst hms
    have hok : _ = (none : Option String) := congrArg (fun t => t.2.2) heq
    obtain ⟨hmap, hmem⟩ := deleteResourcesByOrder_complete prims
      stack.creationOrder.reverse _ _ false (by exact hnodup) hok
    simp only [heq] at hmem
    refine ⟨_, jsMapGet_set_self stackName _ ms.stacksByName, fun _ r hr => ?_⟩
    refine ⟨fun hin => (hmem r hr).1 (List.mem_reverse.mpr hin), fun hnin => ?_⟩
    exact (hmem r hr).2 (fun hc => hnin (List.mem_reverse.mp hc))

def c2wRes : ResourceRecord :=
  { stackName := "w"
    stackId := "sid"
    logicalResourceId := "R1"
    physicalResourceId := "bucket-a"
    resourceType := "AWS::S3::Bucket"
    resourceStatus := "CREATE_COMPLETE"
    resourceStatusReason := none
    timestamp := "t" }

def c2wStack : StackRecord :=
  { stackId := "sid"
    stackName := "w"
    templateBody := ⟨[]⟩
    creationTime := "t"
    stackStatus := "CREATE_COMPLETE"
    stackStatusReason := none
    resources := [c2wRes]
    events := []
    creationOrder := ["R1"] }

def c2wMs : MicroState :=
  ⟨⟨⟨[]⟩, ⟨[]⟩, ⟨[("bucket-a", ⟨"bucket-a", "t", []⟩)]⟩, 0⟩, [("w", c2wStack)]⟩

/-- Witness for the amended C2 at a one-bucket stack. -/
theorem C2_delete_completes_created_resources_witness :
    jsMapGet "w" c2wMs.stacksByName = some c2wStack ∧
    (¬ c2wStack.stackStatus = "DELETE_COMPLETE") ∧
    (c2wStack.resources.map fun r => r.logicalResourceId).Nodup ∧
    ∃ stack', jsMapGet "w" (deleteStack witnessPrims c2wMs "w").1.stacksByName = some stack' ∧
      (stack'.stackStatus = "DELETE_COMPLETE" →
        ∀ r ∈ stack'.resources,
          (r.logicalResourceId ∈ c2wStack.creationOrder →
            r.resourceStatus = "DELETE_COMPLETE") ∧
          (r.logicalResourceId ∉ c2wStack.creationOrder → r ∈ c2wStack.resources)) :=
  ⟨rfl, by decide, by decide,
    C2_delete_completes_created_resources witnessPrims c2wMs "w" c2wStack
      (deleteStack witnessPrims c2wMs "w").1 rfl (by decide) (by decide) rfl⟩

def c6Template : TemplateDocument :=
  ⟨[("Bad", { Type' := "AWS::S3::Bucket"
              Properties := some [("BucketName", Json.str "Bad_Name")]
              DependsOn := none }),
    ("Weird", { Type' := "AWS::SNS::Topic", Properties := none, DependsOn := none })]⟩

def c6Ms0 : MicroState := ⟨⟨⟨[]⟩, ⟨[]⟩, ⟨[]⟩, 0⟩, []⟩

/-- C6 counterexample: a template holding an unsupported-type resource
(`Weird`) behind a resource that fails first (`Bad`, an invalid bucket
name) yields a `CREATE_FAILED` stack whose reason is the bucket error and
does not contain "Unsupported resource type", and no record for the
unsupported resource exists at all (let alone a `CREATE_FAILED` one). -/
theorem C6_counterexample :
    ∃ stack,
      jsMapGet "demo" (createStack witnessPrims c6Ms0 "demo" c6Template).1.stacksByName
        = some stack ∧
      stack.stackStatus = "CREATE_FAILED" ∧
      stack.stackStatusReason = some "The specified bucket is not valid: Bad_Name" ∧
      (stack.resources.map fun r => (r.logicalResourceId, r.resourceStatus))
        = [("Bad", "CREATE_FAILED")] ∧
      ¬ ("Unsupported resource type".toList <:+:
        "The specified bucket is not valid: Bad_Name".toList) := by
  refine ⟨_, rfl, ?_, ?_, ?_, ?_⟩ <;> decide

/-- The three resource types `createResource` can provision. -/
def supportedResourceType (t : String) : Bool :=
  t = "AWS::Logs::LogGroup" || t = "AWS::Lambda::Function" || t = "AWS::S3::Bucket"

theorem createResource_unsupported (prims : Prims) (bk : Backends) (stack : StackRecord)
    (logicalId : String) (resource : TemplateResource)
    (h : supportedResourceType resource.Type' = false) :
    createResource prims bk stack logicalId resource
      = Except.error ⟨500, "", "Unsupported resource type: " ++ resource.Type'⟩ := by
  simp only [supportedResourceType, Bool.or_eq_false_iff, decide_eq_false_iff_not] at h
  obtain ⟨⟨h1, h2⟩, h3⟩ := h
  simp [createResource, h1, h2, h3]


/-- One create iteration appends exactly one record of the template
resource's type; on success it is `CREATE_COMPLETE` (and the type is one
`createResource` supports), on failure it and the stack are
`CREATE_FAILED` with the same reason, which for an unsupported type is
the `Unsupported resource type` message. -/
theorem createResourceStep_spec (prims : Prims) (bk : Backends) (stack : StackRecord)
    (lid : String) (tres : TemplateResource) :
    ∃ newRec : ResourceRecord,
      (createResourceStep prims bk stack lid tres).2.1.resources
        = stack.resources ++ [newRec] ∧
      newRec.resourceType = tres.Type' ∧
      ((createResourceStep prims bk stack lid tres).2.2 = true →
        supportedResourceType tres.Type' = true) ∧
      ((createResourceStep prims bk stack lid tres).2.2 = false →
        newRec.resourceStatus = "CREATE_FAILED" ∧
        (createResourceStep prims bk stack lid tres).2.1.stackStatus = "CREATE_FAILED" ∧
        ∃ msg, newRec.resourceStatusReason = some msg ∧
          (createResourceStep prims bk stack lid tres).2.1.stackStatusReason = some msg ∧
          (supportedResourceType tres.Type' = false →
            msg = "Unsupported resource type: " ++ tres.Type')) := by
  simp only [createResourceStep, addResourceEvent, addStackEvent, freshUuid]
  cases hcr : createResource prims { bk with uuidCtr := bk.uuidCtr + 1 }
      { stack with
        resources := stack.resources ++
          [{ stackName := stack.stackName, stackId := stack.stackId, logicalResourceId := lid, physicalResourceId := lid, resourceType := tres.Type', resourceStatus := "CREATE_IN_PROGRESS", resourceStatusReason := none, timestamp := prims.nowIso }]
        events := { eventId := "uuid-" ++ toString bk.uuidCtr, stackName := stack.stackName, stackId := stack.stackId, logicalResourceId := lid, physicalResourceId := lid, resourceType := tres.Type', resourceStatus := "CREATE_IN_PROGRESS", resourceStatusReason := truthyReason none, timestamp := prims.nowIso } :: stack.events }
      lid tres with
  | ok pair =>
    refine ⟨{ stackName := stack.stackName, stackId := stack.stackId, logicalResourceId := lid, physicalResourceId := pair.1, resourceType := tres.Type', resourceStatus := "CREATE_COMPLETE", resourceStatusReason := none, timestamp := prims.nowIso }, ?_, rfl, fun _ => ?_, fun hcontra => absurd hcontra (by simp)⟩
    · cases pair; rfl
    · by_contra hf
      rw [createResource_unsupported prims _ _ lid tres (Bool.eq_false_iff.mpr hf)] at hcr
      cases hcr
  | error e =>
    refine ⟨{ stackName := stack.stackName, stackId := stack.stackId, logicalResourceId := lid, physicalResourceId := lid, resourceType := tres.Type', resourceStatus := "CREATE_FAILED", resourceStatusReason := some e.message, timestamp := prims.nowIso }, rfl, rfl, fun hcontra => absurd hcontra (by simp), fun _ => ⟨rfl, rfl, e.message, rfl, rfl, fun hbad => ?_⟩⟩
    rw [createResource_unsupported prims _ _ lid tres hbad] at hcr
    injection hcr with he
    rw [← he]

/-- If every record entering the `createStack` loop has a supported type
(initially there are none), then any unsupported-typed record in the
loop's final stack is the one `createResource` refused: it is
`CREATE_FAILED` with the `Unsupported resource type: <Type>` reason, and
the stack itself is `CREATE_FAILED` with the same reason. -/
theorem createStackLoop_unsupported (prims : Prims) (template : TemplateDocument) :
    ∀ (order : List String) (bk : Backends) (stack : StackRecord),
    (∀ r ∈ stack.resources, supportedResourceType r.resourceType = true) →
    ∀ r ∈ (createStackLoop prims template bk stack order).2.1.resources,
      supportedResourceType r.resourceType = false →
        r.resourceStatus = "CREATE_FAILED" ∧
        r.resourceStatusReason = some ("Unsupported resource type: " ++ r.resourceType) ∧
        (createStackLoop prims template bk stack order).2.1.stackStatus = "CREATE_FAILED" ∧
        (createStackLoop prims template bk stack order).2.1.stackStatusReason
          = some ("Unsupported resource type: " ++ r.resourceType) := by
  intro order
  induction order with
  | nil =>
    intro bk stack hinv r hr hbad
    simp only [createStackLoop, addStackEvent, freshUuid] at hr
    exact absurd (hinv r hr) (by simp [hbad])
  | cons lid rest ih =>
    intro bk stack hinv
    cases hget : jsMapGet lid template.Resources with
    | none =>
      have hstep : createStackLoop prims template bk stack (lid :: rest)
          = (bk, stack, Except.error (cfnValidationError
              ("Resource not found in template: " ++ lid))) := by
        simp only [createStackLoop, hget]
      rw [hstep]
      intro r hr hbad
      exact absurd (hinv r hr) (by simp [hbad])
    | some tres =>
      obtain ⟨newRec, hres, htype, hokcase, hfailcase⟩ :=
        createResourceStep_spec prims bk stack lid tres
      rcases hsr : createResourceStep prims bk stack lid tres with ⟨bk1, stack1, flag⟩
      rw [hsr] at hres hokcase hfailcase
      have hstep : createStackLoop prims template bk stack (lid :: rest)
          = match flag with
            | true => createStackLoop prims template bk1 stack1 rest
            | false => (bk1, stack1, Except.ok ()) := by
        simp only [createStackLoop, hget, hsr]
        cases flag <;> rfl
      rw [hstep]
      cases flag with
      | true =>
        have hsupp := hokcase rfl
        have hinv1 : ∀ r ∈ stack1.resources, supportedResourceType r.resourceType = true := by
          intro r hr
          rw [hres] at hr
          rcases List.mem_append.mp hr with h1 | h2
          · exact hinv r h1
          · rw [List.mem_singleton.mp h2, htype]
            exact hsupp
        exact ih bk1 stack1 hinv1
      | false =>
        obtain ⟨hrecfail, hstackfail, msg, hrecreason, hstackreason, hmsg⟩ := hfailcase rfl
        intro r hr hbad
        rw [hres] at hr
        rcases List.mem_append.mp hr with h1 | h2
        · exact absurd (hinv r h1) (by simp [hbad])
        · obtain rfl := List.mem_singleton.mp h2
          have hmsgbad := hmsg (htype ▸ hbad)
          refine ⟨hrecfail, ?_, hstackfail, ?_⟩
          · rw [hrecreason, hmsgbad, htype]
          · rw [hstackreason, hmsgbad, htype]

/-- C6 (amended): an unsupported-type resource only fails the stack with
the `Unsupported resource type` reason if the creation loop actually
reaches it, i.e. a record for it exists; whenever such a record exists it
is `CREATE_FAILED` with reason `Unsupported resource type: <Type>` and
the stack is `CREATE_FAILED` with that same reason.  (If an earlier
resource fails first, the loop stops: no record for the unsupported
resource exists and the stack reason is the earlier error instead.) -/
theorem C6_unsupported_resource_type (prims : Prims) (ms : MicroState)
    (stackName : String) (template : TemplateDocument) (ms' : MicroState)
    (res : Except HttpError StackSummary)
    (hfresh : jsMapHas stackName ms.stacksByName = false)
    (hcreate : createStack prims ms stackName template = (ms', res)) :
    ∀ stack', jsMapGet stackName ms'.stacksByName = some stack' →
      ∀ r ∈ stack'.resources, supportedResourceType r.resourceType = false →
        r.resourceStatus = "CREATE_FAILED" ∧
        r.resourceStatusReason = some ("Unsupported resource type: " ++ r.resourceType) ∧
        stack'.stackStatus = "CREATE_FAILED" ∧
        stack'.stackStatusReason
          = some ("Unsupported resource type: " ++ r.resourceType) := by
  intro stack' hstack'
  have hget0 : jsMapGet stackName ms.stacksByName = none := by
    unfold jsMapHas at hfresh
    cases hg : jsMapGet stackName ms.stacksByName with
    | none => rfl
    | some s => rw [hg] at hfresh; cases hfresh
  cases hvn : validateStackName stackName with
  | error e =>
    simp only [createStack, hvn] at hcreate
    have hmsb : ms.stacksByName = ms'.stacksByName :=
      congrArg (fun p => p.1.stacksByName) hcreate
    rw [← hmsb, hget0] at hstack'
    cases hstack'
  | ok u =>
    simp only [createStack, hvn, hfresh, Bool.false_eq_true, if_false] at hcreate
    cases hvt : validateTemplate template with
    | error e =>
      rw [hvt] at hcreate
      have hmsb : ms.stacksByName = ms'.stacksByName :=
        congrArg (fun p => p.1.stacksByName) hcreate
      rw [← hmsb, hget0] at hstack'
      cases hstack'
    | ok u2 =>
      rw [hvt] at hcreate
      cases hco : computeCreationOrder template.Resources with
      | error e =>
        rw [hco] at hcreate
        have hmsb : ms.stacksByName = ms'.stacksByName :=
          congrArg (fun p => p.1.stacksByName) hcreate
        rw [← hmsb, hget0] at hstack'
        cases hstack'
      | ok order =>
        rw [hco] at hcreate
        simp only [freshUuid, addStackEvent] at hcreate
        split at hcreate
        case _ bk2 stack2 v heq =>
          have h21 := congrArg (fun t => t.2.1) heq
          simp only [] at h21
          have hmsb : jsMapSet stackName stack2 ms.stacksByName = ms'.stacksByName :=
            congrArg (fun p => p.1.stacksByName) hcreate
          rw [← hmsb, jsMapGet_set_self] at hstack'
          obtain rfl : stack2 = stack' := by injection hstack'
          rw [← h21]
          exact createStackLoop_unsupported prims template order _ _
            (by intro r hr; simp at hr)
        case _ bk2 stack2 e heq =>
          have h21 := congrArg (fun t => t.2.1) heq
          simp only [] at h21
          have hmsb : jsMapSet stackName stack2 ms.stacksByName = ms'.stacksByName :=
            congrArg (fun p => p.1.stacksByName) hcreate
          rw [← hmsb, jsMapGet_set_self] at hstack'
          obtain rfl : stack2 = stack' := by injection hstack'
          rw [← h21]
          exact createStackLoop_unsupported prims template order _ _
            (by intro r hr; simp at hr)

def c6wTemplate : TemplateDocument :=
  ⟨[("Weird", { Type' := "AWS::SNS::Topic", Properties := none, DependsOn := none })]⟩

/-- Witness for the amended C6: a reached unsupported-type resource
fails its record and the stack with the `Unsupported resource type`
reason. -/
theorem C6_unsupported_resource_type_witness :
    jsMapHas "demo" c6Ms0.stacksByName = false ∧
    ∃ stack',
      jsMapGet "demo" (createStack witnessPrims c6Ms0 "demo" c6wTemplate).1.stacksByName
        = some stack' ∧
      ∃ r, r ∈ stack'.resources ∧ supportedResourceType r.resourceType = false ∧
        (r.resourceStatus = "CREATE_FAILED" ∧
          r.resourceStatusReason = some ("Unsupported resource type: " ++ r.resourceType) ∧
          stack'.stackStatus = "CREATE_FAILED" ∧
          stack'.stackStatusReason
            = some ("Unsupported resource type: " ++ r.resourceType)) := by
  refine ⟨by decide, _, rfl, _, List.mem_cons_self _ _, by decide,
    C6_unsupported_resource_type witnessPrims c6Ms0 "demo" c6wTemplate _ _
      (by decide) rfl _ rfl _ (List.mem_cons_self _ _) (by decide)⟩
